import Mathlib

/-!
Verification of the ASTParser repository: a shallow embedding of the
route-linking and validation-rule-compilation code, with theorems checking
the natural-language specification's claims against it.

Every definition below is translated from a named function of the Python
source (file and function noted in its doc comment), except the few marked
`Modelled from the spec:` whose code lives outside the repository snapshot.
-/

set_option maxRecDepth 4000

/-! ## Python string primitives used throughout the source -/

/-- `listIsPref a b`: `a` is a prefix of `b` (character lists). -/
def listIsPref : List Char → List Char → Bool
  | [], _ => true
  | _ :: _, [] => false
  | a :: as, b :: bs => a == b && listIsPref as bs

/-- `listInfix n h`: `n` occurs as a contiguous sublist of `h`. -/
def listInfix (n : List Char) : List Char → Bool
  | [] => listIsPref n []
  | b :: t => listIsPref n (b :: t) || listInfix n t

/-- Python `needle in hay` for strings (substring containment). -/
def strContains (hay needle : String) : Bool :=
  listInfix needle.data hay.data

/-- Python `s.startswith(p)`. -/
def strStarts (s p : String) : Bool :=
  listIsPref p.data s.data

/-- Python `s.endswith(p)`. -/
def strEnds (s p : String) : Bool :=
  listIsPref p.data.reverse s.data.reverse

/-- Python `s.strip(chars)`: drop any of `chars` from both ends. -/
def stripChars (cs : List Char) (s : String) : String :=
  let l := (s.data.dropWhile (fun c => cs.contains c)).reverse
  String.mk ((l.dropWhile (fun c => cs.contains c)).reverse)

/-- The quote characters `"` and `'`, the set Python code strips with
`.strip('\x27"')` around literal texts. -/
def quoteChars : List Char := [Char.ofNat 34, Char.ofNat 39]

/-- Python `s.strip('\x27"')`. -/
def stripQuotes (s : String) : String := stripChars quoteChars s

/-- Python `s.strip()` (ASCII whitespace). Core `String.trim` is avoided
throughout: it does not reduce definitionally. -/
def pyTrim (s : String) : String :=
  String.mk
    (((s.data.dropWhile Char.isWhitespace).reverse.dropWhile
        Char.isWhitespace).reverse)

/-- Accumulator loop of `pySplitC`. -/
def splitCharAux (c : Char) : List Char → List Char → List String
  | [], acc => [String.mk acc.reverse]
  | x :: rest, acc =>
    if x == c then String.mk acc.reverse :: splitCharAux c rest []
    else splitCharAux c rest (x :: acc)

/-- Python `s.split(c)` for a one-character separator (the only kind the
source uses). -/
def pySplitC (c : Char) (s : String) : List String :=
  splitCharAux c s.data []

/-- Python `s.lower()`. -/
def pyLower (s : String) : String := String.mk (s.data.map Char.toLower)

/-- Python `s.upper()`. -/
def pyUpper (s : String) : String := String.mk (s.data.map Char.toUpper)

/-- Python `s.split(sep, 1)`: split on the first occurrence of `sep` only.
Returns `none` when `sep` does not occur. -/
def splitOnFirst (sep : String) (s : String) : Option (String × String) :=
  go s.data []
where
  go : List Char → List Char → Option (String × String)
    | [], _ => none
    | c :: rest, acc =>
      if listIsPref sep.data (c :: rest) then
        some (String.mk acc.reverse, String.mk ((c :: rest).drop sep.length))
      else
        go rest (c :: acc)

/-- Digit-run validity for Python `int()`: digits with single underscores
strictly between digits. -/
def pyDigitsOk : List Char → Bool
  | [] => false
  | c :: rest => c.isDigit && pyDigitsTail rest
where
  pyDigitsTail : List Char → Bool
    | [] => true
    | '_' :: c :: rest => c.isDigit && pyDigitsTail rest
    | ['_'] => false
    | c :: rest => c.isDigit && pyDigitsTail rest

/-- Numeric value of a digit run, ignoring underscores. -/
def pyDigitsVal (l : List Char) : Nat :=
  l.foldl (fun acc c => if c == '_' then acc else acc * 10 + (c.toNat - 48)) 0

/-- Python `int(s)`: `some n` when the call succeeds, `none` when it raises
`ValueError`. -/
def pyInt (s : String) : Option Int :=
  match (pyTrim s).data with
  | '+' :: rest => if pyDigitsOk rest then some (pyDigitsVal rest) else none
  | '-' :: rest => if pyDigitsOk rest then some (-(pyDigitsVal rest : Int)) else none
  | l => if pyDigitsOk l then some (pyDigitsVal l) else none

/-! ## Python dict operations (insertion-ordered association lists) -/

/-- Python `d[k] = v`: overwrite in place if the key exists, append otherwise. -/
def dictInsert {α : Type} (l : List (String × α)) (k : String) (v : α) :
    List (String × α) :=
  match l with
  | [] => [(k, v)]
  | (k', v') :: t => if k' == k then (k', v) :: t else (k', v') :: dictInsert t k v

/-- Python `{**a, **b}` / `a.update(b)`. -/
def dictMerge {α : Type} (a b : List (String × α)) : List (String × α) :=
  b.foldl (fun acc kv => dictInsert acc kv.1 kv.2) a

/-- First value bound to `k` (Python `d.get(k)` for our insertion-ordered
representation without duplicate keys). -/
def dictGet {α : Type} (l : List (String × α)) (k : String) : Option α :=
  match l with
  | [] => none
  | (k', v) :: t => if k' == k then some v else dictGet t k

/-! ## Syntax-tree nodes

The Python linkers traverse a JSON rendering of a tree-sitter parse tree:
each node has a `type`, an optional structural `field` name, a `text`, a
start line, and a list of children. -/

inductive Node where
  | mk (ntype : String) (nfield : Option String) (ntext : String)
      (startLine : Nat) (children : List Node)

def Node.ntype : Node → String
  | .mk t _ _ _ _ => t

def Node.nfield : Node → Option String
  | .mk _ f _ _ _ => f

def Node.ntext : Node → String
  | .mk _ _ tx _ _ => tx

def Node.startLine : Node → Nat
  | .mk _ _ _ l _ => l

def Node.children : Node → List Node
  | .mk _ _ _ _ cs => cs

/-- First child having a given structural field name (the
`child.get('field') == f` pattern of the linkers). -/
def childByField (n : Node) (f : String) : Option Node :=
  n.children.find? (fun c => c.nfield == some f)

/-- First child of a given node type (`find_child_by_type` of
parse_routes_v2.py). -/
def find_child_by_type (n : Node) (t : String) : Option Node :=
  n.children.find? (fun c => c.ntype == t)

mutual

/-- All nodes of a given type in the subtree, pre-order, root included —
the behaviour of a one-pattern tree-sitter query cursor. -/
def preorderOfType (t : String) : Node → List Node
  | .mk nt f tx l cs =>
    (if nt == t then [Node.mk nt f tx l cs] else []) ++ preorderList t cs

/-- List version of `preorderOfType`. -/
def preorderList (t : String) : List Node → List Node
  | [] => []
  | c :: rest => preorderOfType t c ++ preorderList t rest

end

/-! ## laravel_api_extractor.py — LaravelASTExtractor -/

namespace Extractor

/-- `ValidationRule` dataclass of laravel_api_extractor.py. -/
structure ValidationRule where
  rule_name : String
  parameters : List String := []
  required : Bool := false
  enum_values : List String := []
  min_value : Option Int := none
  max_value : Option Int := none

/-- `FieldValidation` dataclass of laravel_api_extractor.py (recursive via
`nested_fields`, hence an inductive). -/
inductive FieldValidation where
  | mk (field_name field_type : String) (required nullable : Bool)
      (rules : List ValidationRule)
      (nested_fields : List (String × FieldValidation))
      (is_array : Bool) (enum_values : List String)
      (min_value max_value : Option Int)

def FieldValidation.field_name : FieldValidation → String
  | .mk v _ _ _ _ _ _ _ _ _ => v

def FieldValidation.field_type : FieldValidation → String
  | .mk _ v _ _ _ _ _ _ _ _ => v

def FieldValidation.required : FieldValidation → Bool
  | .mk _ _ v _ _ _ _ _ _ _ => v

def FieldValidation.nullable : FieldValidation → Bool
  | .mk _ _ _ v _ _ _ _ _ _ => v

def FieldValidation.rules : FieldValidation → List ValidationRule
  | .mk _ _ _ _ v _ _ _ _ _ => v

def FieldValidation.nested_fields : FieldValidation → List (String × FieldValidation)
  | .mk _ _ _ _ _ v _ _ _ _ => v

def FieldValidation.is_array : FieldValidation → Bool
  | .mk _ _ _ _ _ _ v _ _ _ => v

def FieldValidation.enum_values : FieldValidation → List String
  | .mk _ _ _ _ _ _ _ v _ _ => v

def FieldValidation.min_value : FieldValidation → Option Int
  | .mk _ _ _ _ _ _ _ _ v _ => v

def FieldValidation.max_value : FieldValidation → Option Int
  | .mk _ _ _ _ _ _ _ _ _ v => v

/-- `FieldValidation(field_name=name)` with the dataclass defaults. -/
def FieldValidation.new (name : String) : FieldValidation :=
  .mk name "string" false false [] [] false [] none none

def FieldValidation.setFieldName : FieldValidation → String → FieldValidation
  | .mk _ ft r nu rs nf ia ev mn mx, v => .mk v ft r nu rs nf ia ev mn mx

def FieldValidation.setFieldType : FieldValidation → String → FieldValidation
  | .mk fn _ r nu rs nf ia ev mn mx, v => .mk fn v r nu rs nf ia ev mn mx

def FieldValidation.setRequired : FieldValidation → Bool → FieldValidation
  | .mk fn ft _ nu rs nf ia ev mn mx, v => .mk fn ft v nu rs nf ia ev mn mx

def FieldValidation.setNullable : FieldValidation → Bool → FieldValidation
  | .mk fn ft r _ rs nf ia ev mn mx, v => .mk fn ft r v rs nf ia ev mn mx

def FieldValidation.appendRule : FieldValidation → ValidationRule → FieldValidation
  | .mk fn ft r nu rs nf ia ev mn mx, v => .mk fn ft r nu (rs ++ [v]) nf ia ev mn mx

def FieldValidation.setNested :
    FieldValidation → List (String × FieldValidation) → FieldValidation
  | .mk fn ft r nu rs _ ia ev mn mx, v => .mk fn ft r nu rs v ia ev mn mx

def FieldValidation.setIsArray : FieldValidation → Bool → FieldValidation
  | .mk fn ft r nu rs nf _ ev mn mx, v => .mk fn ft r nu rs nf v ev mn mx

def FieldValidation.setEnum : FieldValidation → List String → FieldValidation
  | .mk fn ft r nu rs nf ia _ mn mx, v => .mk fn ft r nu rs nf ia v mn mx

def FieldValidation.setMin : FieldValidation → Option Int → FieldValidation
  | .mk fn ft r nu rs nf ia ev _ mx, v => .mk fn ft r nu rs nf ia ev v mx

def FieldValidation.setMax : FieldValidation → Option Int → FieldValidation
  | .mk fn ft r nu rs nf ia ev mn _, v => .mk fn ft r nu rs nf ia ev mn v

/-- `LaravelASTExtractor.parse_single_rule` (laravel_api_extractor.py,
lines 294-312). -/
def parse_single_rule (rule_str : String) : ValidationRule :=
  match splitOnFirst ":" rule_str with
  | none =>
    { rule_name := rule_str, required := rule_str == "required" }
  | some (name, paramstr) =>
    let params := (pySplitC ',' paramstr).map pyTrim
    { rule_name := name
      parameters := params
      enum_values := if name == "in" then params else []
      required := name == "required" }

/-- The if/elif chain of `parse_validation_value` (lines 270-290) that sets
field-level properties from one parsed rule. -/
def applyRule (v : FieldValidation) (pr : ValidationRule) : FieldValidation :=
  if pr.rule_name == "required" then v.setRequired true
  else if pr.rule_name == "nullable" then v.setNullable true
  else if ["string", "integer", "numeric", "boolean", "array", "file",
      "image"].contains pr.rule_name then v.setFieldType pr.rule_name
  else if pr.rule_name == "min" && !pr.parameters.isEmpty then
    match pyInt (pr.parameters.headD "") with
    | some n => v.setMin (some n)
    | none => v
  else if pr.rule_name == "max" && !pr.parameters.isEmpty then
    match pyInt (pr.parameters.headD "") with
    | some n => v.setMax (some n)
    | none => v
  else if pr.rule_name == "in" && !pr.parameters.isEmpty then
    v.setEnum pr.parameters
  else if strStarts pr.rule_name "enum" then v.setEnum pr.enum_values
  else v

/-- One iteration of the rule loop of `parse_validation_value`
(lines 266-290): the rule string is parsed, appended to `rules`, and folded
into the field-level properties. -/
def ruleStep (v : FieldValidation) (rs : String) : FieldValidation :=
  let pr := parse_single_rule rs
  applyRule (v.appendRule pr) pr

/-- The rule loop of `parse_validation_value` (lines 264-291). -/
def foldRules (rule_strings : List String) : FieldValidation :=
  rule_strings.foldl ruleStep (FieldValidation.new "")

/-- The rule-string collection of `parse_validation_value`
(lines 247-262): a pipe-delimited string literal or an array of string
literals. -/
def ruleStrings (value_node : Node) : List String :=
  if ["string", "encapsed_string"].contains value_node.ntype then
    (pySplitC '|' (stripQuotes value_node.ntext)).map pyTrim
  else if value_node.ntype == "array_creation_expression" then
    value_node.children.foldl
      (fun acc child =>
        if child.ntype == "array_element_initializer" then
          acc ++ child.children.foldl
            (fun acc2 element =>
              if element.ntype == "array_element" then
                match childByField element "value" with
                | some val =>
                  if ["string", "encapsed_string"].contains val.ntype then
                    acc2 ++ [stripQuotes val.ntext]
                  else acc2
                | none => acc2
              else acc2) []
        else acc) []
  else []

/-- `LaravelASTExtractor.parse_validation_value` (lines 242-292). -/
def parse_validation_value (value_node : Node) : FieldValidation :=
  foldRules (ruleStrings value_node)

/-- `LaravelASTExtractor.handle_nested_validation` (lines 314-335). -/
def handle_nested_validation (field_path : String) (validation : FieldValidation) :
    List (String × FieldValidation) :=
  let parts := pySplitC '.' field_path
  if parts.contains "*" then
    let base_field := parts.headD ""
    let nested_path :=
      if parts.length > 2 then String.intercalate "." (parts.drop 2)
      else parts.getLastD ""
    let v := validation.setFieldName nested_path
    [(base_field,
      ((FieldValidation.new base_field).setIsArray true).setNested
        [(nested_path, v)])]
  else
    [(field_path, validation.setFieldName field_path)]

/-- `LaravelASTExtractor.parse_validation_array` (lines 219-240). -/
def parse_validation_array (array_node : Node) : List (String × FieldValidation) :=
  array_node.children.foldl
    (fun rules child =>
      if child.ntype == "array_element_initializer" then
        child.children.foldl
          (fun rules2 element =>
            if element.ntype == "array_element" then
              match childByField element "key", childByField element "value" with
              | some key_node, some value_node =>
                let field_name := stripQuotes key_node.ntext
                let validation := parse_validation_value value_node
                if strContains field_name "." then
                  dictMerge rules2 (handle_nested_validation field_name validation)
                else dictInsert rules2 field_name validation
              | _, _ => rules2
            else rules2) rules
      else rules) []

/-- `RouteParameter` dataclass. -/
structure RouteParameter where
  name : String
  optional : Bool := false
  ptype : Option String := none

/-- `ResponseField` dataclass (recursive via `nested_fields`). -/
inductive ResponseField where
  | mk (field_name field_type : String) (nullable : Bool)
      (nested_fields : List (String × ResponseField))
      (is_array : Bool) (description : Option String)

/-- `APIEndpoint` dataclass. -/
structure APIEndpoint where
  http_method : String
  route_path : String
  controller : Option String := none
  controller_method : Option String := none
  route_parameters : List RouteParameter := []
  request_validation : List (String × FieldValidation) := []
  form_request_class : Option String := none
  response_structure : List (String × ResponseField) := []
  response_status : Nat := 200
  route_name : Option String := none
  middleware : List String := []
  file_path : Option String := none
  line_number : Option Nat := none

def lbrace : Char := Char.ofNat 123

def rbrace : Char := Char.ofNat 125

/-- One attempt of the pattern `([a-zA-Z_][a-zA-Z0-9_]*)\??` followed by a
closing brace, starting just after an opening brace. -/
def tryParam (l : List Char) : Option (String × Bool) :=
  match l with
  | [] => none
  | c :: rest =>
    if c.isAlpha || c == '_' then
      let ws := rest.takeWhile (fun ch => ch.isAlphanum || ch == '_')
      match rest.drop ws.length with
      | [] => none
      | d :: r2 =>
        if d == rbrace then some (String.mk (c :: ws), false)
        else if d == '?' then
          match r2 with
          | e :: _ => if e == rbrace then some (String.mk (c :: ws), true) else none
          | [] => none
        else none
    else none

/-- Left-to-right scan for the `re.finditer` pattern of
`extract_route_parameters`. Matches never contain an opening brace after
their first character, so restarting one character after each opening brace
finds exactly the non-overlapping matches. -/
def scanRouteParams : List Char → List RouteParameter
  | [] => []
  | c :: rest =>
    if c == lbrace then
      match tryParam rest with
      | some (name, opt) =>
        { name := name, optional := opt } :: scanRouteParams rest
      | none => scanRouteParams rest
    else scanRouteParams rest

/-- `LaravelASTExtractor.extract_route_parameters` (lines 636-648). -/
def extract_route_parameters (route_path : String) : List RouteParameter :=
  scanRouteParams route_path.data

/-- `LaravelASTExtractor.parse_controller_handler` (lines 650-681). -/
def parse_controller_handler (handler_node : Node) : Option (String × String) :=
  let elements := handler_node.children.foldl
    (fun acc child =>
      if child.ntype == "array_element_initializer" then
        acc ++ child.children.foldl
          (fun a2 element =>
            if element.ntype == "array_element" then
              match childByField element "value" with
              | some v => a2 ++ [v]
              | none => a2
            else a2) []
      else acc) []
  if elements.length < 2 then none
  else
    let controller : Option String :=
      match elements.get? 0 with
      | some e0 =>
        if e0.ntype == "scoped_property_access_expression" then
          (childByField e0 "scope").map Node.ntext
        else none
      | none => none
    let method : Option String :=
      match elements.get? 1 with
      | some e1 =>
        if ["string", "encapsed_string"].contains e1.ntype then
          some (stripQuotes e1.ntext)
        else none
      | none => none
    match controller, method with
    | some c, some m => some (c, m)
    | _, _ => none

/-- `LaravelASTExtractor.parse_route_definition` (lines 586-634).
`Node.startLine` models the already 1-based `start_point[0] + 1`.
`extract_route_chains` is the identity here: the query of `extract_routes`
captures only `scoped_call_expression` nodes directly under an
`expression_statement`, whose parent therefore is never a
`member_call_expression`, so the chain walk never executes its body. -/
def parse_route_definition (route_node : Node) (file_path : String) :
    Option APIEndpoint :=
  match childByField route_node "name", childByField route_node "arguments" with
  | some method_node, some args_node =>
    let http_method := method_node.ntext
    if !(["get", "post", "put", "patch", "delete", "options"].contains http_method)
    then none
    else
      let args := args_node.children.filter
        (fun c => !(["(", ")", ","].contains c.ntype))
      let route_path :=
        match args.get? 0 with
        | some a0 => stripQuotes a0.ntext
        | none => ""
      let route_params :=
        match args.get? 0 with
        | some _ => extract_route_parameters route_path
        | none => []
      let handler_info :=
        match args.get? 1 with
        | some handler =>
          if handler.ntype == "array_creation_expression" then
            parse_controller_handler handler
          else none
        | none => none
      some { http_method := pyUpper http_method
             route_path := route_path
             controller := handler_info.map Prod.fst
             controller_method := handler_info.map Prod.snd
             route_parameters := route_params
             file_path := some file_path
             line_number := some route_node.startLine }
  | _, _ => none

/-- The route-call query of `extract_routes` (lines 561-578): all
`scoped_call_expression` nodes directly under an `expression_statement`,
with `scope`/`name`/`arguments` structure and scope text `Route`. -/
def routeCandidates (tree : Node) : List Node :=
  (preorderOfType "expression_statement" tree).foldl
    (fun acc stmt =>
      acc ++ stmt.children.filter
        (fun c =>
          c.ntype == "scoped_call_expression" &&
          (match childByField c "scope" with
           | some s => s.ntype == "name" && s.ntext == "Route"
           | none => false) &&
          (match childByField c "name" with
           | some nn => nn.ntype == "name"
           | none => false) &&
          c.children.any (fun a => a.ntype == "arguments"))) []

/-- `LaravelASTExtractor.extract_routes` (lines 543-584) over already-parsed
route-file trees: only endpoints whose HTTP method is GET are appended
(lines 581-584). -/
def extract_routes (route_files : List (String × Node)) : List APIEndpoint :=
  route_files.foldl
    (fun routes fp_tree =>
      (routeCandidates fp_tree.2).foldl
        (fun rs node =>
          match parse_route_definition node fp_tree.1 with
          | some ep =>
            if pyUpper ep.http_method == "GET" then rs ++ [ep] else rs
          | none => rs) routes) []

/-- The per-method info dict built by `extract_controller_methods`. -/
structure MethodInfo where
  name : String
  parameters : List (Option String × Option String) := []
  form_request : Option String := none
  return_type : Option String := none

/-- `LaravelASTExtractor.link_route_data` (lines 709-736) for one endpoint.
`return_type` is Python `None` when the controller method declares no return
type; testing `resource_name in None` then raises `TypeError`, hence the
`Except`. -/
def link_one_route (controllers : List (String × List (String × MethodInfo)))
    (form_requests : List (String × List (String × FieldValidation)))
    (resources : List (String × List (String × ResponseField)))
    (endpoint : APIEndpoint) : Except String APIEndpoint :=
  match endpoint.controller, endpoint.controller_method with
  | some c, some m =>
    if c == "" || m == "" then .ok endpoint
    else
      match dictGet controllers c with
      | none => .ok endpoint
      | some controller_info =>
        match dictGet controller_info m with
        | none => .ok endpoint
        | some method_info =>
          let ep1 :=
            match method_info.form_request with
            | some fr =>
              if fr == "" then endpoint
              else
                let ep0 := { endpoint with form_request_class := some fr }
                match form_requests.find?
                  (fun p => strContains fr p.1 || strEnds fr p.1) with
                | some found => { ep0 with request_validation := found.2 }
                | none => ep0
            | none => endpoint
          match resources with
          | [] => .ok ep1
          | _ :: _ =>
            match method_info.return_type with
            | none => .error "TypeError"
            | some rt =>
              match resources.find? (fun p => strContains rt p.1) with
              | some found => .ok { ep1 with response_structure := found.2 }
              | none => .ok ep1
  | _, _ => .ok endpoint

/-- `LaravelASTExtractor.link_route_data` over the whole route list. -/
def link_route_data (controllers : List (String × List (String × MethodInfo)))
    (form_requests : List (String × List (String × FieldValidation)))
    (resources : List (String × List (String × ResponseField)))
    (endpoints : List APIEndpoint) : Except String (List APIEndpoint) :=
  endpoints.foldlM
    (fun acc ep => do
      let ep' ← link_one_route controllers form_requests resources ep
      return acc ++ [ep'])
    []

/-- `LaravelASTExtractor.extract_all` (lines 121-149): routes are extracted
(GET-filtered at append time), linked in place, and filtered to GET once
more at line 146. -/
def extract_all (route_files : List (String × Node))
    (controllers : List (String × List (String × MethodInfo)))
    (form_requests : List (String × List (String × FieldValidation)))
    (resources : List (String × List (String × ResponseField))) :
    Except String (List APIEndpoint) := do
  let routes := extract_routes route_files
  let linked ← link_route_data controllers form_requests resources routes
  return linked.filter (fun r => pyUpper r.http_method == "GET")

end Extractor

/-! ## JSON-style dictionaries for the OpenAPI-schema fragments the linkers
build (`{'type': ..., 'format': ..., 'items': {...}}`) -/

inductive JVal where
  | str (s : String)
  | obj (fields : List (String × JVal))

/-- `d.get(k)` on a JSON object; `none` on a non-object. -/
def jLookup (v : JVal) (k : String) : Option JVal :=
  match v with
  | .obj fs => dictGet fs k
  | .str _ => none

/-- `d[k] = x` on a JSON object. -/
def jSet (v : JVal) (k : String) (x : JVal) : JVal :=
  match v with
  | .obj fs => .obj (dictInsert fs k x)
  | .str s => .str s

/-! ## linker_full.py -/

namespace LinkerFull

/-- The schema dict accumulated by `parse_validation_rule`: each optional
field models presence of the corresponding key. -/
structure PVRSchema where
  type : String := "string"
  items : Option JVal := none
  minLength : Option Int := none
  maxLength : Option Int := none
  minimum : Option Int := none
  maximum : Option Int := none
  enum : Option (List String) := none
  format : Option String := none
  minItems : Option Int := none
  maxItems : Option Int := none
  nullable : Option Bool := none

/-- The loop state of `parse_validation_rule`. -/
structure PVRState where
  schema : PVRSchema := {}
  required : Bool := false
  nullable : Bool := false

/-- `{'schema': ..., 'required': ..., 'nullable': ...}` returned by
`parse_validation_rule`. -/
structure RuleResult where
  schema : PVRSchema
  required : Bool
  nullable : Bool

/-- One iteration of the rule loop of `parse_validation_rule`
(linker_full.py, lines 124-181). `int()` on a non-numeric parameter raises
`ValueError`, modelled by `Except.error`. -/
def pvrStep (st : PVRState) (rule : String) : Except String PVRState :=
  if rule == "required" then .ok { st with required := true }
  else if rule == "nullable" || rule == "sometimes" then
    .ok { st with nullable := true }
  else if rule == "integer" then
    .ok { st with schema := { st.schema with type := "integer" } }
  else if rule == "numeric" then
    .ok { st with schema := { st.schema with type := "number" } }
  else if rule == "boolean" then
    .ok { st with schema := { st.schema with type := "boolean" } }
  else if rule == "array" then
    .ok { st with schema :=
      { st.schema with type := "array"
                       items := some (JVal.obj [("type", JVal.str "string")]) } }
  else if rule == "string" then
    .ok { st with schema := { st.schema with type := "string" } }
  else if strStarts rule "min:" then
    let min_val := (pySplitC ':' rule).getD 1 ""
    if st.schema.type == "string" then
      match pyInt min_val with
      | some n => .ok { st with schema := { st.schema with minLength := some n } }
      | none => .error "ValueError"
    else if st.schema.type == "integer" || st.schema.type == "number" then
      match pyInt min_val with
      | some n => .ok { st with schema := { st.schema with minimum := some n } }
      | none => .error "ValueError"
    else .ok st
  else if strStarts rule "max:" then
    let max_val := (pySplitC ':' rule).getD 1 ""
    if st.schema.type == "string" then
      match pyInt max_val with
      | some n => .ok { st with schema := { st.schema with maxLength := some n } }
      | none => .error "ValueError"
    else if st.schema.type == "integer" || st.schema.type == "number" then
      match pyInt max_val with
      | some n => .ok { st with schema := { st.schema with maximum := some n } }
      | none => .error "ValueError"
    else .ok st
  else if strStarts rule "in:" then
    let enum_str := String.mk (rule.data.drop 3)
    .ok { st with schema :=
      { st.schema with enum := some (((pySplitC ',' enum_str).map pyTrim)) } }
  else if strStarts rule "email" then
    .ok { st with schema := { st.schema with format := some "email" } }
  else if rule == "url" then
    .ok { st with schema := { st.schema with format := some "uri" } }
  else if rule == "date" then
    .ok { st with schema := { st.schema with type := "string", format := some "date" } }
  else if rule == "datetime" then
    .ok { st with schema :=
      { st.schema with type := "string", format := some "date-time" } }
  else if strStarts rule "size:" then
    if st.schema.type == "array" then
      match pyInt ((pySplitC ':' rule).getD 1 "") with
      | some n => .ok { st with schema :=
          { st.schema with minItems := some n, maxItems := some n } }
      | none => .error "ValueError"
    else .ok st
  else .ok st

/-- `parse_validation_rule` (linker_full.py, lines 116-186). -/
def parse_validation_rule (rule_str : String) : Except String RuleResult := do
  let rules_list := (pySplitC '|' rule_str).map pyTrim
  let st ← rules_list.foldlM pvrStep {}
  let schema :=
    if st.nullable then { st.schema with nullable := some true } else st.schema
  return { schema := schema, required := st.required, nullable := st.nullable }

mutual

/-- `find_method_in_class` (linker_full.py, lines 337-350), also the inner
`find_method` of `find_validation_rules` (lines 65-74). -/
def find_method_in_class (method_name : String) : Node → Option Node
  | .mk t f tx l cs =>
    if t == "method_declaration" &&
        cs.any (fun c => c.nfield == some "name" && c.ntext == method_name) then
      some (.mk t f tx l cs)
    else fmicList method_name cs

/-- Child loop of `find_method_in_class`. -/
def fmicList (method_name : String) : List Node → Option Node
  | [] => none
  | c :: rest =>
    match find_method_in_class method_name c with
    | some r => some r
    | none => fmicList method_name rest

end

mutual

/-- `find_return_array` (linker_full.py, lines 81-94 and 423-433): inside a
`return_statement`, a direct child `array_creation_expression` is returned,
otherwise the search recurses. -/
def find_return_array : Node → Option Node
  | .mk t _ _ _ cs =>
    if t == "return_statement" then
      match fraRet cs with
      | some r => some r
      | none => fraAll cs
    else fraAll cs

/-- Child loop of the `return_statement` branch of `find_return_array`. -/
def fraRet : List Node → Option Node
  | [] => none
  | c :: rest =>
    if c.ntype == "array_creation_expression" then some c
    else
      match find_return_array c with
      | some r => some r
      | none => fraRet rest

/-- Fall-through child loop of `find_return_array`. -/
def fraAll : List Node → Option Node
  | [] => none
  | c :: rest =>
    match find_return_array c with
    | some r => some r
    | none => fraAll rest

end

/-- `find_validation_rules` (linker_full.py, lines 62-113): locate the
`rules()` method, its returned array, and text-split each element on `=>`.
Propagates the `ValueError` `parse_validation_rule` may raise. -/
def find_validation_rules (class_node : Node) :
    Except String (List (String × RuleResult)) :=
  match find_method_in_class "rules" class_node with
  | none => .ok []
  | some rules_method =>
    match find_return_array rules_method with
    | none => .ok []
    | some array_node =>
      array_node.children.foldlM
        (fun rules child =>
          if child.ntype == "array_element_initializer" then
            match splitOnFirst "=>" child.ntext with
            | some (p0, p1) => do
              let field_name := stripQuotes (pyTrim p0)
              let rules_str := stripQuotes (pyTrim p1)
              let r ← parse_validation_rule rules_str
              return dictInsert rules field_name r
            | none => .ok rules
          else .ok rules) []

/-- The `{'type': 'object', 'properties': ..., 'required': ...}` schema of
the response extractors. -/
structure LFSchema where
  props : List (String × JVal) := []
  required : List String := []

/-- One element step of `extract_array_schema_from_method`
(linker_full.py, lines 442-466). -/
def lfElemStep (sch : LFSchema) (child : Node) : LFSchema :=
  if child.ntype == "array_element_initializer" then
    match splitOnFirst "=>" child.ntext with
    | some (p0, p1) =>
      let field_name := stripQuotes (pyTrim p0)
      let field_value := pyTrim p1
      let base := JVal.obj [("type", JVal.str "string")]
      let field_schema :=
        if strContains field_value "$this->" then
          if ["id", "count", "number"].any (fun x => strContains field_name x) then
            jSet base "type" (JVal.str "integer")
          else if ["created_at", "updated_at", "date"].any
              (fun x => strContains field_name x) then
            JVal.obj [("type", JVal.str "string"), ("format", JVal.str "date-time")]
          else if ["is_", "has_"].any (fun x => strContains field_name x) then
            jSet base "type" (JVal.str "boolean")
          else base
        else base
      let sch1 := { sch with props := dictInsert sch.props field_name field_schema }
      if !(strContains field_name "deleted_at") &&
          !(strContains (pyLower field_value) "null") then
        { sch1 with required := sch1.required ++ [field_name] }
      else sch1
    | none => sch
  else sch

/-- `extract_array_schema_from_method` (linker_full.py, lines 420-468);
`none` models the empty dict returned when no return array exists. -/
def extract_array_schema_from_method (method_node : Node) : Option LFSchema :=
  match find_return_array method_node with
  | none => none
  | some array_node => some (array_node.children.foldl lfElemStep {})

/-- A `class_index` entry (`{'node': ..., 'file': ...}`). -/
structure ClassInfo where
  node : Node
  file : String

/-- `extract_request_from_method` (linker_full.py, lines 353-383). -/
def extract_request_from_method (method_node : Node)
    (class_index : List (String × ClassInfo)) :
    Except String (List (String × RuleResult)) :=
  match method_node.children.find? (fun c => c.ntype == "formal_parameters") with
  | none => .ok []
  | some params_node => goParams params_node.children
where
  goParams : List Node → Except String (List (String × RuleResult))
    | [] => .ok []
    | child :: rest =>
      if child.ntype == "simple_parameter" then
        match (child.children.find? (fun p => p.nfield == some "type")).map
            Node.ntext with
        | some pt =>
          if pt != "" && strContains pt "Request" then
            match class_index.find? (fun p => strContains p.1 pt) with
            | some found => find_validation_rules found.2.node
            | none => goParams rest
          else goParams rest
        | none => goParams rest
      else goParams rest

/-- Inner class-index loop of `extract_response_from_method`
(linker_full.py, lines 404-415): `some r` is an early `return` with result
`r` (possibly the empty schema), `none` continues to the next return
statement. -/
def respIndexLoop (text : String) :
    List (String × ClassInfo) → Option (Option LFSchema)
  | [] => none
  | (fqn, ci) :: rest =>
    let class_name := (pySplitC (Char.ofNat 92) fqn).getLastD ""
    if (strContains class_name "Resource" || strContains class_name "Transformer")
        && strContains text class_name then
      let to_array :=
        match find_method_in_class "toArray" ci.node with
        | some m => some m
        | none => find_method_in_class "transform" ci.node
      match to_array with
      | some m => some (extract_array_schema_from_method m)
      | none => respIndexLoop text rest
    else respIndexLoop text rest

/-- `extract_response_from_method` (linker_full.py, lines 386-417). -/
def extract_response_from_method (method_node : Node)
    (class_index : List (String × ClassInfo)) : Option LFSchema :=
  goRets (preorderOfType "return_statement" method_node)
where
  goRets : List Node → Option LFSchema
    | [] => none
    | ret :: rest =>
      match respIndexLoop ret.ntext class_index with
      | some r => r
      | none => goRets rest

/-- A route dict produced by `parse_route_call_node`. -/
structure Route where
  method : Option String := none
  path : Option String := none
  controller : Option String := none
  action : Option String := none
  line : Option Nat := none
  source_file : Option String := none

/-- A linked route descriptor appended by `link_routes_to_schemas`. -/
structure Linked where
  method : Option String
  path : Option String
  controller : String
  action : String
  parameters : List (String × RuleResult)
  response : Option LFSchema
  line : Option Nat
  file : Option String

/-- The controller lookup of `link_routes_to_schemas` (linker_full.py,
lines 302-308): the first indexed fully-qualified name that contains the
route's controller reference as a substring. -/
def findControllerClass (class_index : List (String × ClassInfo))
    (controller : String) : Option (String × ClassInfo) :=
  class_index.find? (fun p => strContains p.1 controller)

/-- `link_routes_to_schemas` (linker_full.py, lines 286-334). A route whose
controller or action is missing (or empty), whose controller matches no
indexed class by substring containment, or whose action method is not found,
is skipped (`continue`) — it produces no linked entry. -/
def link_routes_to_schemas (routes : List Route)
    (class_index : List (String × ClassInfo)) : Except String (List Linked) :=
  routes.foldlM
    (fun linked route =>
      match route.controller, route.action with
      | some controller, some action =>
        if controller == "" || action == "" then .ok linked
        else
          match findControllerClass class_index controller with
          | none => .ok linked
          | some found =>
            match find_method_in_class action found.2.node with
            | none => .ok linked
            | some method_node => do
              let request_params ←
                extract_request_from_method method_node class_index
              let response_schema :=
                extract_response_from_method method_node class_index
              return linked ++
                [{ method := route.method, path := route.path
                   controller := controller, action := action
                   parameters := request_params, response := response_schema
                   line := route.line, file := route.source_file }]
      | _, _ => .ok linked) []

end LinkerFull

/-! ## linker_get.py -/

namespace LinkerGet

/-- A `class_index` entry of `build_class_index` (linker_get.py,
lines 105-129). -/
structure ClassInfo where
  node : Node
  file : String

mutual

/-- `find_method_in_class` (linker_get.py, lines 170-183). -/
def find_method_in_class (method_name : String) : Node → Option Node
  | .mk t f tx l cs =>
    if t == "method_declaration" &&
        cs.any (fun c => c.nfield == some "name" && c.ntext == method_name) then
      some (.mk t f tx l cs)
    else fmicList method_name cs

/-- Child loop of `find_method_in_class`. -/
def fmicList (method_name : String) : List Node → Option Node
  | [] => none
  | c :: rest =>
    match find_method_in_class method_name c with
    | some r => some r
    | none => fmicList method_name rest

end

mutual

/-- `find_return_array` (linker_get.py, lines 224-234). -/
def find_return_array : Node → Option Node
  | .mk t _ _ _ cs =>
    if t == "return_statement" then
      match fraRet cs with
      | some r => some r
      | none => fraAll cs
    else fraAll cs

/-- Child loop of the `return_statement` branch of `find_return_array`. -/
def fraRet : List Node → Option Node
  | [] => none
  | c :: rest =>
    if c.ntype == "array_creation_expression" then some c
    else
      match find_return_array c with
      | some r => some r
      | none => fraRet rest

/-- Fall-through child loop of `find_return_array`. -/
def fraAll : List Node → Option Node
  | [] => none
  | c :: rest =>
    match find_return_array c with
    | some r => some r
    | none => fraAll rest

end

/-- `infer_type_from_value` (linker_get.py, lines 278-297). -/
def infer_type_from_value (field_name field_value : String) : JVal :=
  if ["_id", "id", "count", "number", "amount", "quantity"].any
      (fun x => strContains field_name x) then
    JVal.obj [("type", JVal.str "integer")]
  else if ["is_", "has_", "can_", "should_"].any
      (fun x => strContains field_name x) then
    JVal.obj [("type", JVal.str "boolean")]
  else if ["_at", "date", "time"].any (fun x => strContains field_name x) then
    JVal.obj [("type", JVal.str "string"), ("format", JVal.str "date-time")]
  else if strContains field_value "[" || strContains (pyLower field_value) "array"
  then
    JVal.obj [("type", JVal.str "array"),
      ("items", JVal.obj [("type", JVal.str "object")])]
  else JVal.obj [("type", JVal.str "string")]

/-- The object schema of `parse_to_array_method`: the dict carries a
`required` key exactly when the list is non-empty. -/
structure GSchema where
  props : List (String × JVal) := []
  required : List String := []

/-- One element step of `parse_to_array_method` (linker_get.py,
lines 244-262). -/
def gElemStep (st : List (String × JVal) × List String) (child : Node) :
    List (String × JVal) × List String :=
  if child.ntype == "array_element_initializer" then
    match splitOnFirst "=>" child.ntext with
    | some (p0, p1) =>
      let field_name := stripQuotes (pyTrim p0)
      let field_value := pyTrim p1
      let props := dictInsert st.1 field_name
        (infer_type_from_value field_name field_value)
      if !(strContains field_name "deleted_at") &&
          !(strContains (pyLower field_value) "null") then
        (props, st.2 ++ [field_name])
      else (props, st.2)
    | none => st
  else st

/-- `parse_to_array_method` (linker_get.py, lines 221-275); `none` models
the empty dict returned when there is no return array or no parsed
property. -/
def parse_to_array_method (method_node : Node) : Option GSchema :=
  match find_return_array method_node with
  | none => none
  | some array_node =>
    let st := array_node.children.foldl gElemStep ([], [])
    if st.1.isEmpty then none
    else some { props := st.1, required := st.2 }

/-- Inner class-index loop of `extract_response_schema` (linker_get.py,
lines 204-216): unlike linker_full, an empty parsed schema lets the loop
continue. -/
def respIndexLoop (text : String) :
    List (String × ClassInfo) → Option GSchema
  | [] => none
  | (fqn, ci) :: rest =>
    let class_name := (pySplitC (Char.ofNat 92) fqn).getLastD ""
    if (strContains class_name "Resource" || strContains class_name "Transformer")
        && strContains text class_name then
      let to_array :=
        match find_method_in_class "toArray" ci.node with
        | some m => some m
        | none => find_method_in_class "transform" ci.node
      match to_array with
      | some m =>
        match parse_to_array_method m with
        | some sch =>
          if sch.props.isEmpty then respIndexLoop text rest else some sch
        | none => respIndexLoop text rest
      | none => respIndexLoop text rest
    else respIndexLoop text rest

/-- `extract_response_schema` (linker_get.py, lines 186-218). -/
def extract_response_schema (method_node : Node)
    (class_index : List (String × ClassInfo)) : Option GSchema :=
  goRets (preorderOfType "return_statement" method_node)
where
  goRets : List Node → Option GSchema
    | [] => none
    | ret :: rest =>
      match respIndexLoop ret.ntext class_index with
      | some r => some r
      | none => goRets rest

/-- The controller lookup of `link_get_routes` (linker_get.py,
lines 314-318): first substring match against the indexed fully-qualified
names. -/
def findControllerClass (class_index : List (String × ClassInfo))
    (controller : String) : Option (String × ClassInfo) :=
  class_index.find? (fun p => strContains p.1 controller)

/-- A GET route dict of `parse_get_route` (always fully populated). -/
structure GRoute where
  path : String
  controller : String
  action : String
  line : Nat
  file : String

/-- A linked entry of `link_get_routes`. -/
structure GLinked where
  path : String
  controller : String
  action : String
  response : Option GSchema
  line : Nat

/-- `link_get_routes` (linker_get.py, lines 300-339). A route whose
controller matches no indexed class, or whose action method is not found,
is skipped (`continue`). -/
def link_get_routes (routes : List GRoute)
    (class_index : List (String × ClassInfo)) : List GLinked :=
  routes.foldl
    (fun linked route =>
      match findControllerClass class_index route.controller with
      | none => linked
      | some found =>
        match find_method_in_class route.action found.2.node with
        | none => linked
        | some method_node =>
          linked ++
            [{ path := route.path, controller := route.controller
               action := route.action
               response := extract_response_schema method_node class_index
               line := route.line }]) []

end LinkerGet

/-! ## linker_query_correct.py -/

namespace LinkerQC

/-- A parsed PHP file as consumed by the Query-API linker. -/
structure QFile where
  path : String
  tree : Node

/-- Matches of the query `(class_declaration name: (name) @class_name)`:
pre-order `class_declaration` nodes paired with the text of their `name`
field child. -/
def classMatches (tree : Node) : List (Node × String) :=
  (preorderOfType "class_declaration" tree).foldl
    (fun acc c =>
      match childByField c "name" with
      | some nn => if nn.ntype == "name" then acc ++ [(c, nn.ntext)] else acc
      | none => acc) []

/-- `find_controller` (linker_query_correct.py, lines 97-121): exact
equality of the declared class name against the reference, first file and
first match win. -/
def find_controller (files : List QFile) (controller_name : String) :
    Option (String × Node) :=
  match files with
  | [] => none
  | f :: rest =>
    match (classMatches f.tree).find? (fun p => p.2 == controller_name) with
    | some found => some (f.path, found.1)
    | none => find_controller rest controller_name

/-- Matches of the query `(method_declaration name: (name) @method_name)`. -/
def methodMatches (tree : Node) : List (Node × String) :=
  (preorderOfType "method_declaration" tree).foldl
    (fun acc c =>
      match childByField c "name" with
      | some nn => if nn.ntype == "name" then acc ++ [(c, nn.ntext)] else acc
      | none => acc) []

/-- `find_method` (linker_query_correct.py, lines 124-143). -/
def find_method (class_node : Node) (method_name : String) : Option Node :=
  ((methodMatches class_node).find? (fun p => p.2 == method_name)).map Prod.fst

/-- `find_response_calls` (linker_query_correct.py, lines 146-169). -/
def find_response_calls (method_node : Node) : List String :=
  (preorderOfType "member_call_expression" method_node).foldl
    (fun acc n =>
      match childByField n "object", childByField n "name" with
      | some o, some nm =>
        if o.ntype == "variable_name" && nm.ntype == "name" then
          if o.ntext == "$this" && strContains (pyLower nm.ntext) "response" then
            acc ++ [nm.ntext]
          else acc
        else acc
      | _, _ => acc) []

/-- `infer_type` (linker_query_correct.py, lines 253-262). -/
def infer_type (field_name value_text : String) : JVal :=
  if ["_id", "id", "count", "number", "amount", "quantity"].any
      (fun x => strContains field_name x) then
    JVal.obj [("type", JVal.str "integer")]
  else if ["is_", "has_", "can_", "should_"].any
      (fun x => strContains field_name x) then
    JVal.obj [("type", JVal.str "boolean")]
  else if ["_at", "date", "time"].any (fun x => strContains field_name x) then
    JVal.obj [("type", JVal.str "string"), ("format", JVal.str "date-time")]
  else if strContains value_text "[" || strContains (pyLower value_text) "array"
  then
    JVal.obj [("type", JVal.str "array"),
      ("items", JVal.obj [("type", JVal.str "object")])]
  else JVal.obj [("type", JVal.str "string")]

/-- The object schema of `parse_array`: the dict carries a `required` key
exactly when the list is non-empty. -/
structure QSchema where
  props : List (String × JVal) := []
  required : List String := []

/-- One element step of `parse_array` (linker_query_correct.py,
lines 222-243): the key is the first string descendant of the element, the
value text its whole text. -/
def qElemStep (st : List (String × JVal) × List String) (elem : Node) :
    List (String × JVal) × List String :=
  let strings := (preorderOfType "string" elem).map (fun s => stripQuotes s.ntext)
  match strings with
  | [] => st
  | key :: _ =>
    let value_text := elem.ntext
    let props := dictInsert st.1 key (infer_type key value_text)
    if !(strContains (pyLower value_text) "null") &&
        !(strContains key "deleted_at") then
      (props, st.2 ++ [key])
    else (props, st.2)

/-- `parse_array` (linker_query_correct.py, lines 211-250): elements are
every `array_element_initializer` in the array subtree; `none` models the
empty dict returned when nothing parses. -/
def parse_array (array_node : Node) : Option QSchema :=
  let st := (preorderOfType "array_element_initializer" array_node).foldl
    qElemStep ([], [])
  if st.1.isEmpty then none
  else some { props := st.1, required := st.2 }

/-- `parse_return_array` (linker_query_correct.py, lines 187-208). -/
def parse_return_array (method_node : Node) : Option QSchema :=
  goReturns (preorderOfType "return_statement" method_node)
where
  goArrays : List Node → Option QSchema
    | [] => none
    | arr :: rest =>
      match parse_array arr with
      | some sch => some sch
      | none => goArrays rest
  goReturns : List Node → Option QSchema
    | [] => none
    | ret :: rest =>
      match goArrays (preorderOfType "array_creation_expression" ret) with
      | some sch => some sch
      | none => goReturns rest

/-- `extract_response` (linker_query_correct.py, lines 172-184). -/
def extract_response (method_node class_node : Node) : Option QSchema :=
  match goCalls (find_response_calls method_node) with
  | some sch => some sch
  | none => parse_return_array method_node
where
  goCalls : List String → Option QSchema
    | [] => none
    | name :: rest =>
      match find_method class_node name with
      | some m =>
        match parse_return_array m with
        | some sch => some sch
        | none => goCalls rest
      | none => goCalls rest

/-- A parameter dict (`{'name', 'in', 'required', 'schema'}`). -/
structure QueryParam where
  name : String
  pin : String
  required : Bool
  schema : JVal

/-- One attempt of the pattern `(\w+)` followed by a closing brace,
starting just after an opening brace. -/
def qTryParam (l : List Char) : Option String :=
  let ws := l.takeWhile (fun ch => ch.isAlphanum || ch == '_')
  if ws.isEmpty then none
  else
    match l.drop ws.length with
    | d :: _ => if d == Extractor.rbrace then some (String.mk ws) else none
    | [] => none

/-- Left-to-right scan for `re.finditer` over the pattern of
`extract_path_parameters`; matches contain no interior opening brace, so
restarting after each opening brace is exact. -/
def qScan : List Char → List String
  | [] => []
  | c :: rest =>
    if c == Extractor.lbrace then
      match qTryParam rest with
      | some w => w :: qScan rest
      | none => qScan rest
    else qScan rest

/-- `extract_path_parameters` (linker_query_correct.py, lines 265-277). -/
def extract_path_parameters (path : String) : List QueryParam :=
  (qScan path.data).map
    (fun w =>
      { name := w, pin := "path", required := true
        schema := JVal.obj [("type", JVal.str "string")] })

/-- `infer_param_type` (linker_query_correct.py, lines 424-436). -/
def infer_param_type (validation_text : String) : JVal :=
  if strContains validation_text "integer" || strContains validation_text "numeric"
  then JVal.obj [("type", JVal.str "integer")]
  else if strContains validation_text "boolean" then
    JVal.obj [("type", JVal.str "boolean")]
  else if strContains validation_text "email" then
    JVal.obj [("type", JVal.str "string"), ("format", JVal.str "email")]
  else if strContains validation_text "date" then
    JVal.obj [("type", JVal.str "string"), ("format", JVal.str "date")]
  else if strContains validation_text "array" then
    JVal.obj [("type", JVal.str "array"),
      ("items", JVal.obj [("type", JVal.str "string")])]
  else JVal.obj [("type", JVal.str "string")]

/-- `parse_validation_rules` (linker_query_correct.py, lines 369-421):
appends one query parameter per keyed element across every return
statement and array, with no early exit. -/
def parse_validation_rules (rules_method : Node) : List QueryParam :=
  (preorderOfType "return_statement" rules_method).foldl
    (fun acc ret =>
      (preorderOfType "array_creation_expression" ret).foldl
        (fun acc2 arr =>
          (preorderOfType "array_element_initializer" arr).foldl
            (fun acc3 elem =>
              let strings := (preorderOfType "string" elem).map
                (fun s => stripQuotes s.ntext)
              match strings with
              | [] => acc3
              | field_name :: _ =>
                let value_text := elem.ntext
                acc3 ++
                  [{ name := field_name, pin := "query"
                     required := strContains (pyLower value_text) "required"
                     schema := infer_param_type value_text }]) acc2) acc) []

/-- `find_form_request` (linker_query_correct.py, lines 342-366): the first
request file declaring a class with exactly the given name. -/
def find_form_request (class_name : String) (files : List QFile) : Option QFile :=
  files.find? (fun f => (classMatches f.tree).any (fun p => p.2 == class_name))

/-- The parameter-type texts matched by the query of
`extract_query_parameters` (lines 283-301): `simple_parameter` nodes with a
`named_type` type field and a `variable_name` name field. -/
def paramTypeTexts (method_node : Node) : List String :=
  (preorderOfType "simple_parameter" method_node).foldl
    (fun acc p =>
      match childByField p "type", childByField p "name" with
      | some ty, some nm =>
        if ty.ntype == "named_type" && nm.ntype == "variable_name" then
          acc ++ [ty.ntext]
        else acc
      | _, _ => acc) []

/-- `extract_query_parameters` (linker_query_correct.py, lines 280-339). -/
def extract_query_parameters (method_node : Node) (request_files : List QFile) :
    List QueryParam :=
  match (paramTypeTexts method_node).find? (fun pt => strEnds pt "Request") with
  | none => []
  | some form_request_class =>
    match find_form_request form_request_class request_files with
    | none => []
    | some file =>
      match (classMatches file.tree).find?
          (fun p => p.2 == form_request_class) with
      | none => []
      | some found =>
        match find_method found.1 "rules" with
        | none => []
        | some rules_method => parse_validation_rules rules_method

/-- A route dict of `parse_route_args` (always fully populated). -/
structure QRoute where
  path : String
  controller : String
  action : String

/-- A linked entry of `link_routes`. -/
structure QLinked where
  path : String
  controller : String
  action : String
  response : Option QSchema
  parameters : List QueryParam

/-- One iteration of `link_routes` (linker_query_correct.py,
lines 443-471): every branch appends exactly one entry; an unresolved
controller or method degrades to an empty response and parameter list. -/
def linkRouteStep (controller_files request_files : List QFile)
    (linked : List QLinked) (route : QRoute) : List QLinked :=
  match find_controller controller_files route.controller with
  | none =>
    linked ++
      [{ path := route.path, controller := route.controller
         action := route.action, response := none, parameters := [] }]
  | some found =>
    match find_method found.2 route.action with
    | none =>
      linked ++
        [{ path := route.path, controller := route.controller
           action := route.action, response := none, parameters := [] }]
    | some method_node =>
      let response := extract_response method_node found.2
      let path_params := extract_path_parameters route.path
      let query_params := extract_query_parameters method_node request_files
      linked ++
        [{ path := route.path, controller := route.controller
           action := route.action, response := response
           parameters := path_params ++ query_params }]

/-- `link_routes` (linker_query_correct.py, lines 439-473). -/
def link_routes (routes : List QRoute)
    (controller_files request_files : List QFile) : List QLinked :=
  routes.foldl (linkRouteStep controller_files request_files) []

end LinkerQC

/-! ## build_api_structure_v3.py -/

namespace BuildV3

/-- The merge step of `APIStructureBuilderV3.parse_validation_rules_from_ast`
(build_api_structure_v3.py, line 105): `{**trait_rules, **rules_dict}` —
for a field declared by both sources, the method source's entire rule value
replaces the trait source's value. -/
def combined_rules (trait_rules rules_dict : List (String × String)) :
    List (String × String) :=
  dictMerge trait_rules rules_dict

/-- The flags derived for one field from its merged rule value. -/
structure DerivedFlags where
  required : Bool
  nullable : Bool

/-- Modelled from the spec: the flag derivation of §4.3 over one field's
rule value (the deriving code lives in `parsers/nested_builder.py`, which
is not part of this snapshot): token `required` sets required=true; tokens
`nullable` or `sometimes` set nullable=true. -/
def deriveFlags (rule_str : String) : DerivedFlags :=
  let tokens := (pySplitC '|' rule_str).map pyTrim
  { required := tokens.contains "required"
    nullable := tokens.contains "nullable" || tokens.contains "sometimes" }

end BuildV3

/-! ## parse_routes_v2.py -/

namespace ParseV2

/-- One entry of the `cases` list built by `extract_enum_cases`. -/
structure EnumCase where
  name : String
  value : Option String
  line : Nat

/-- One case iteration of `extract_enum_cases` (parse_routes_v2.py,
lines 231-247): the value is the last `string`/`integer` child's text with
quotes stripped, `none` for a pure (unbacked) case. `Node.startLine` models
the 1-based `start_point[0] + 1`. -/
def enumCaseStep (cases : List EnumCase) (child : Node) : List EnumCase :=
  if child.ntype == "enum_case" then
    match find_child_by_type child "name" with
    | some name_node =>
      let value := child.children.foldl
        (fun v c =>
          if c.ntype == "string" || c.ntype == "integer" then
            some (stripQuotes c.ntext)
          else v) none
      cases ++
        [{ name := name_node.ntext, value := value, line := child.startLine }]
    | none => cases
  else cases

/-- `DetailedASTParser.extract_enum_cases` (parse_routes_v2.py,
lines 223-249): cases are collected in declaration order from the
`declaration_list` child. -/
def extract_enum_cases (enum_node : Node) : List EnumCase :=
  match find_child_by_type enum_node "declaration_list" with
  | none => []
  | some declaration_list =>
    declaration_list.children.foldl enumCaseStep []

/-- Modelled from the spec: enum-reference resolution (§4.5) returns each
case's explicit literal value when present, the case name otherwise (value
takes precedence over name); the selecting code lives in
`parsers/nested_builder.py`, which is not part of this snapshot. -/
def allowed_values (cases : List EnumCase) : List String :=
  cases.map (fun c => (c.value).getD c.name)

/-- The tree-sitter shape of one `case N = <string literal>;` (or pure
`case N;`) enum-case declaration, as consumed by `extract_enum_cases`. -/
def mkEnumCase (name : String) (valText : Option String) (line : Nat) : Node :=
  Node.mk "enum_case" none "" line
    ([Node.mk "case" none "case" line [],
      Node.mk "name" (some "name") name line []] ++
      (match valText with
       | some t =>
         [Node.mk "=" none "=" line [],
          Node.mk "string" (some "value") t line []]
       | none => []) ++
      [Node.mk ";" none ";" line []])

/-- The tree-sitter shape of an enum declaration with the given case
nodes. -/
def mkEnumNode (cases : List Node) : Node :=
  Node.mk "enum_declaration" none "" 1
    [Node.mk "enum" none "enum" 1 [],
     Node.mk "name" (some "name") "StatusEnum" 1 [],
     Node.mk "declaration_list" (some "body") "" 1 cases]

end ParseV2

/-! ## Verification predicates and concrete fixtures -/

/-- Well-formedness of an extracted object schema: the `required` name list
is a subset of the property keys, and every property value carries a
`type` key. -/
def schemaWellFormed (props : List (String × JVal)) (required : List String) :
    Prop :=
  (∀ k ∈ required, k ∈ props.map Prod.fst) ∧
  ∀ p ∈ props, (jLookup p.2 "type").isSome = true

/-- A parsed route file declaring one GET and one POST route, in the node
shape consumed by `Extractor.extract_routes`. -/
def sampleRouteTree : Node :=
  Node.mk "program" none "" 1
    [Node.mk "expression_statement" none "" 2
      [Node.mk "scoped_call_expression" none "" 2
        [Node.mk "name" (some "scope") "Route" 2 [],
         Node.mk "name" (some "name") "get" 2 [],
         Node.mk "arguments" (some "arguments") "" 2
           [Node.mk "(" none "(" 2 [],
            Node.mk "string" none "/items" 2 [],
            Node.mk ")" none ")" 2 []]]],
     Node.mk "expression_statement" none "" 3
      [Node.mk "scoped_call_expression" none "" 3
        [Node.mk "name" (some "scope") "Route" 3 [],
         Node.mk "name" (some "name") "post" 3 [],
         Node.mk "arguments" (some "arguments") "" 3
           [Node.mk "(" none "(" 3 [],
            Node.mk "string" none "/items" 3 [],
            Node.mk ")" none ")" 3 []]]]]

/-- A `toArray`-style method node whose return array has one keyed element,
in the shape consumed by the three response-schema extractors. -/
def sampleToArray : Node :=
  Node.mk "method_declaration" none "" 1
    [Node.mk "name" (some "name") "toArray" 1 [],
     Node.mk "compound_statement" (some "body") "" 1
       [Node.mk "return_statement" none "" 2
         [Node.mk "array_creation_expression" none "[id => $this->id]" 2
           [Node.mk "array_element_initializer" none "id => $this->id" 2
             [Node.mk "string" none "id" 2 []]]]]]

/-- The return array node of `sampleToArray`. -/
def sampleArrayNode : Node :=
  Node.mk "array_creation_expression" none "[id => $this->id]" 2
    [Node.mk "array_element_initializer" none "id => $this->id" 2
      [Node.mk "string" none "id" 2 []]]

/-- A parsed controller file declaring class `UserController`, in the node
shape consumed by `LinkerQC.find_controller`. -/
def userControllerFile : LinkerQC.QFile :=
  { path := "UserController.php"
    tree := Node.mk "program" none "" 1
      [Node.mk "class_declaration" none "" 1
        [Node.mk "name" (some "name") "UserController" 1 []]] }

/-! # Helper lemmas -/

theorem dictInsert_cons_eq {α : Type} (t : List (String × α)) (k : String)
    (v v0 : α) : dictInsert ((k, v0) :: t) k v = (k, v) :: t := by
  simp [dictInsert]

theorem dictInsert_cons_ne {α : Type} (t : List (String × α)) (k k0 : String)
    (v : α) (v0 : α) (hk : k0 ≠ k) :
    dictInsert ((k0, v0) :: t) k v = (k0, v0) :: dictInsert t k v := by
  simp [dictInsert, hk]

theorem dictGet_dictInsert_self {α : Type} (l : List (String × α)) (k : String)
    (v : α) : dictGet (dictInsert l k v) k = some v := by
  induction l with
  | nil => simp [dictInsert, dictGet]
  | cons hd t ih =>
    obtain ⟨k', v'⟩ := hd
    by_cases hk : k' = k
    · subst hk; simp [dictInsert, dictGet]
    · rw [dictInsert_cons_ne _ _ _ _ _ hk]
      simp [dictGet, hk, ih]

theorem dictGet_dictInsert_ne {α : Type} (l : List (String × α)) (k k' : String)
    (v : α) (h : k' ≠ k) : dictGet (dictInsert l k v) k' = dictGet l k' := by
  induction l with
  | nil => simp [dictInsert, dictGet, Ne.symm h]
  | cons hd t ih =>
    obtain ⟨k0, v0⟩ := hd
    by_cases hk : k0 = k
    · subst hk
      rw [dictInsert_cons_eq]
      simp [dictGet, Ne.symm h]
    · rw [dictInsert_cons_ne _ _ _ _ _ hk]
      simp [dictGet, ih]

theorem dictGet_eq_none_of_not_mem {α : Type} (l : List (String × α))
    (k : String) (h : ¬ k ∈ l.map Prod.fst) : dictGet l k = none := by
  induction l with
  | nil => rfl
  | cons hd t ih =>
    obtain ⟨k0, v0⟩ := hd
    simp only [List.map_cons, List.mem_cons] at h
    push_neg at h
    have hk : k0 ≠ k := fun he => h.1 he.symm
    simp [dictGet, hk, ih h.2]

theorem dictGet_dictMerge_right_none {α : Type} (md : List (String × α)) :
    ∀ (tr : List (String × α)) (k : String), dictGet md k = none →
    dictGet (dictMerge tr md) k = dictGet tr k := by
  induction md with
  | nil => intro tr k _; rfl
  | cons hd t ih =>
    intro tr k h
    obtain ⟨k0, v0⟩ := hd
    by_cases hk : k0 = k
    · subst hk; simp [dictGet] at h
    · have h' : dictGet t k = none := by simpa [dictGet, hk] using h
      have step : dictMerge tr ((k0, v0) :: t) = dictMerge (dictInsert tr k0 v0) t := rfl
      rw [step, ih _ k h', dictGet_dictInsert_ne _ _ _ _ (fun he => hk he.symm)]

theorem dictGet_dictMerge_right_some {α : Type} (md : List (String × α)) :
    ∀ (tr : List (String × α)) (k : String) (v : α),
    (md.map Prod.fst).Nodup → dictGet md k = some v →
    dictGet (dictMerge tr md) k = some v := by
  induction md with
  | nil => intro tr k v _ h; simp [dictGet] at h
  | cons hd t ih =>
    intro tr k v hnd h
    obtain ⟨k0, v0⟩ := hd
    simp only [List.map_cons, List.nodup_cons] at hnd
    have step : dictMerge tr ((k0, v0) :: t) = dictMerge (dictInsert tr k0 v0) t := rfl
    by_cases hk : k0 = k
    · subst hk
      have hv : v0 = v := by simpa [dictGet] using h
      have hnone : dictGet t k0 = none :=
        dictGet_eq_none_of_not_mem _ _ (by simpa using hnd.1)
      rw [step, dictGet_dictMerge_right_none t _ _ hnone,
        dictGet_dictInsert_self, hv]
    · have h' : dictGet t k = some v := by simpa [dictGet, hk] using h
      rw [step, ih _ k v hnd.2 h']

theorem mem_keys_dictInsert {α : Type} (l : List (String × α)) (k : String)
    (v : α) : k ∈ (dictInsert l k v).map Prod.fst := by
  induction l with
  | nil => simp [dictInsert]
  | cons hd t ih =>
    obtain ⟨k0, v0⟩ := hd
    by_cases hk : k0 = k
    · subst hk; simp [dictInsert]
    · rw [dictInsert_cons_ne _ _ _ _ _ hk]
      simp only [List.map_cons, List.mem_cons]
      exact Or.inr ih

theorem keys_dictInsert_mono {α : Type} (l : List (String × α)) (k : String)
    (v : α) (a : String) (h : a ∈ l.map Prod.fst) :
    a ∈ (dictInsert l k v).map Prod.fst := by
  induction l with
  | nil => simp at h
  | cons hd t ih =>
    obtain ⟨k0, v0⟩ := hd
    simp only [List.map_cons, List.mem_cons] at h
    by_cases hk : k0 = k
    · subst hk; rw [dictInsert_cons_eq]; simpa using h
    · rw [dictInsert_cons_ne _ _ _ _ _ hk]
      simp only [List.map_cons, List.mem_cons]
      rcases h with h | h
      · exact Or.inl h
      · exact Or.inr (ih h)

theorem mem_dictInsert_elim {α : Type} (l : List (String × α)) (k : String)
    (v : α) (p : String × α) (h : p ∈ dictInsert l k v) :
    p ∈ l ∨ p.2 = v := by
  induction l with
  | nil =>
    simp [dictInsert] at h
    subst h; simp
  | cons hd t ih =>
    obtain ⟨k0, v0⟩ := hd
    by_cases hk : k0 = k
    · subst hk
      rw [dictInsert_cons_eq] at h
      rcases List.mem_cons.mp h with h | h
      · subst h; simp
      · exact Or.inl (List.mem_cons_of_mem _ h)
    · rw [dictInsert_cons_ne _ _ _ _ _ hk] at h
      rcases List.mem_cons.mp h with h | h
      · subst h; simp
      · rcases ih h with h' | h'
        · exact Or.inl (List.mem_cons_of_mem _ h')
        · exact Or.inr h'

namespace Extractor

@[simp] theorem required_appendRule (v : FieldValidation) (r : ValidationRule) :
    (v.appendRule r).required = v.required := by cases v; rfl

@[simp] theorem required_setRequired (v : FieldValidation) (b : Bool) :
    (v.setRequired b).required = b := by cases v; rfl

@[simp] theorem required_setNullable (v : FieldValidation) (b : Bool) :
    (v.setNullable b).required = v.required := by cases v; rfl

@[simp] theorem required_setFieldType (v : FieldValidation) (s : String) :
    (v.setFieldType s).required = v.required := by cases v; rfl

@[simp] theorem required_setMin (v : FieldValidation) (o : Option Int) :
    (v.setMin o).required = v.required := by cases v; rfl

@[simp] theorem required_setMax (v : FieldValidation) (o : Option Int) :
    (v.setMax o).required = v.required := by cases v; rfl

@[simp] theorem required_setEnum (v : FieldValidation) (e : List String) :
    (v.setEnum e).required = v.required := by cases v; rfl

@[simp] theorem nullable_appendRule (v : FieldValidation) (r : ValidationRule) :
    (v.appendRule r).nullable = v.nullable := by cases v; rfl

@[simp] theorem nullable_setRequired (v : FieldValidation) (b : Bool) :
    (v.setRequired b).nullable = v.nullable := by cases v; rfl

@[simp] theorem nullable_setNullable (v : FieldValidation) (b : Bool) :
    (v.setNullable b).nullable = b := by cases v; rfl

@[simp] theorem nullable_setFieldType (v : FieldValidation) (s : String) :
    (v.setFieldType s).nullable = v.nullable := by cases v; rfl

@[simp] theorem nullable_setMin (v : FieldValidation) (o : Option Int) :
    (v.setMin o).nullable = v.nullable := by cases v; rfl

@[simp] theorem nullable_setMax (v : FieldValidation) (o : Option Int) :
    (v.setMax o).nullable = v.nullable := by cases v; rfl

@[simp] theorem nullable_setEnum (v : FieldValidation) (e : List String) :
    (v.setEnum e).nullable = v.nullable := by cases v; rfl

@[simp] theorem min_value_appendRule (v : FieldValidation) (r : ValidationRule) :
    (v.appendRule r).min_value = v.min_value := by cases v; rfl

@[simp] theorem min_value_setRequired (v : FieldValidation) (b : Bool) :
    (v.setRequired b).min_value = v.min_value := by cases v; rfl

@[simp] theorem min_value_setNullable (v : FieldValidation) (b : Bool) :
    (v.setNullable b).min_value = v.min_value := by cases v; rfl

@[simp] theorem min_value_setFieldType (v : FieldValidation) (s : String) :
    (v.setFieldType s).min_value = v.min_value := by cases v; rfl

@[simp] theorem min_value_setMin (v : FieldValidation) (o : Option Int) :
    (v.setMin o).min_value = o := by cases v; rfl

@[simp] theorem min_value_setMax (v : FieldValidation) (o : Option Int) :
    (v.setMax o).min_value = v.min_value := by cases v; rfl

@[simp] theorem min_value_setEnum (v : FieldValidation) (e : List String) :
    (v.setEnum e).min_value = v.min_value := by cases v; rfl

@[simp] theorem max_value_appendRule (v : FieldValidation) (r : ValidationRule) :
    (v.appendRule r).max_value = v.max_value := by cases v; rfl

@[simp] theorem max_value_setRequired (v : FieldValidation) (b : Bool) :
    (v.setRequired b).max_value = v.max_value := by cases v; rfl

@[simp] theorem max_value_setNullable (v : FieldValidation) (b : Bool) :
    (v.setNullable b).max_value = v.max_value := by cases v; rfl

@[simp] theorem max_value_setFieldType (v : FieldValidation) (s : String) :
    (v.setFieldType s).max_value = v.max_value := by cases v; rfl

@[simp] theorem max_value_setMin (v : FieldValidation) (o : Option Int) :
    (v.setMin o).max_value = v.max_value := by cases v; rfl

@[simp] theorem max_value_setMax (v : FieldValidation) (o : Option Int) :
    (v.setMax o).max_value = o := by cases v; rfl

@[simp] theorem max_value_setEnum (v : FieldValidation) (e : List String) :
    (v.setEnum e).max_value = v.max_value := by cases v; rfl

theorem applyRule_required (v : FieldValidation) (pr : ValidationRule) :
    (applyRule v pr).required = (v.required || (pr.rule_name == "required")) := by
  unfold applyRule
  split_ifs with h1 h2 h3 h4 h5 h6 h7 <;>
    (try rcases hpy : pyInt (pr.parameters.head?.getD "") with _ | n) <;> simp_all

theorem applyRule_nullable (v : FieldValidation) (pr : ValidationRule) :
    (applyRule v pr).nullable = (v.nullable || (pr.rule_name == "nullable")) := by
  unfold applyRule
  split_ifs with h1 h2 h3 h4 h5 h6 h7 <;>
    (try rcases hpy : pyInt (pr.parameters.head?.getD "") with _ | n) <;> simp_all

theorem applyRule_min_value (v : FieldValidation) (pr : ValidationRule)
    (h : pyInt (pr.parameters.headD "") = none) :
    (applyRule v pr).min_value = v.min_value := by
  unfold applyRule
  split_ifs <;> simp_all

theorem applyRule_max_value (v : FieldValidation) (pr : ValidationRule)
    (h : pyInt (pr.parameters.headD "") = none) :
    (applyRule v pr).max_value = v.max_value := by
  unfold applyRule
  split_ifs <;> simp_all

theorem ruleStep_required (v : FieldValidation) (r : String) :
    (ruleStep v r).required =
      (v.required || ((parse_single_rule r).rule_name == "required")) := by
  unfold ruleStep
  rw [applyRule_required, required_appendRule]

theorem ruleStep_nullable (v : FieldValidation) (r : String) :
    (ruleStep v r).nullable =
      (v.nullable || ((parse_single_rule r).rule_name == "nullable")) := by
  unfold ruleStep
  rw [applyRule_nullable, nullable_appendRule]

theorem foldl_ruleStep_required (rules : List String) :
    ∀ v : FieldValidation, (rules.foldl ruleStep v).required =
      (v.required ||
        rules.any (fun r => (parse_single_rule r).rule_name == "required")) := by
  induction rules with
  | nil => intro v; simp
  | cons r rest ih =>
    intro v
    simp only [List.foldl_cons, List.any_cons]
    rw [ih, ruleStep_required, Bool.or_assoc]

theorem foldl_ruleStep_nullable (rules : List String) :
    ∀ v : FieldValidation, (rules.foldl ruleStep v).nullable =
      (v.nullable ||
        rules.any (fun r => (parse_single_rule r).rule_name == "nullable")) := by
  induction rules with
  | nil => intro v; simp
  | cons r rest ih =>
    intro v
    simp only [List.foldl_cons, List.any_cons]
    rw [ih, ruleStep_nullable, Bool.or_assoc]

end Extractor

/-! # Claims -/

/-- C1 counterexample: merging a mixin (trait) source `{"nullable"}` with a
method source `{"required"}` for the same field keeps only the method's
whole rule value (`{**trait_rules, **rules_dict}` replaces per field), so
the derived flags are required=true and nullable=false — not nullable=true
as the claim states. -/
theorem c1_counterexample :
    BuildV3.combined_rules [("field", "nullable")] [("field", "required")] =
      [("field", "required")] ∧
    dictGet (BuildV3.combined_rules [("field", "nullable")]
      [("field", "required")]) "field" = some "required" ∧
    (BuildV3.deriveFlags "required").required = true ∧
    (BuildV3.deriveFlags "required").nullable = false :=
  ⟨rfl, rfl, rfl, rfl⟩

/-- C1 (amended): the merge evaluates the mixin first and the method source
last, but per field the method's entire rule value replaces the mixin's —
a field the method redeclares loses every mixin-contributed attribute,
while a field the method does not mention keeps the mixin's value; for the
mixin `{"nullable"}` / method `{"required"}` example, the merged field
derives required=true and nullable=false. -/
theorem c1_merge_method_overrides :
    (∀ (tr md : List (String × String)) (k v : String),
      (md.map Prod.fst).Nodup → dictGet md k = some v →
      dictGet (BuildV3.combined_rules tr md) k = some v) ∧
    (∀ (tr md : List (String × String)) (k : String),
      dictGet md k = none →
      dictGet (BuildV3.combined_rules tr md) k = dictGet tr k) ∧
    (BuildV3.deriveFlags "required").required = true ∧
    (BuildV3.deriveFlags "required").nullable = false := by
  refine ⟨?_, ?_, rfl, rfl⟩
  · intro tr md k v hnd h
    exact dictGet_dictMerge_right_some md tr k v hnd h
  · intro tr md k h
    exact dictGet_dictMerge_right_none md tr k h

/-- C1 witness: the amended merge law evaluated on the claim's example. -/
theorem c1_merge_method_overrides_witness :
    dictGet (BuildV3.combined_rules [("field", "nullable")]
      [("field", "required")]) "field" = some "required" ∧
    dictGet (BuildV3.combined_rules [("page", "nullable")] []) "page" =
      some "nullable" :=
  ⟨c1_merge_method_overrides.1 [("field", "nullable")] [("field", "required")]
      "field" "required" (by simp) rfl,
    c1_merge_method_overrides.2.1 [("page", "nullable")] [] "page" rfl⟩

/-- C3 counterexample: resolving the dotted name `user.email` yields a
single flat entry keyed by the full dotted name; there is no `user` key and
no intermediate object. -/
theorem c3_counterexample :
    Extractor.handle_nested_validation "user.email"
        (Extractor.FieldValidation.new "") =
      [("user.email",
        (Extractor.FieldValidation.new "").setFieldName "user.email")] ∧
    dictGet (Extractor.handle_nested_validation "user.email"
      (Extractor.FieldValidation.new "")) "user" = none :=
  ⟨rfl, rfl⟩

/-- C3 (amended): for a flat name containing `.` with no `*` segment, the
nested-path handler inserts one flat entry keyed by the entire dotted path,
setting the schema's field name to that path; it creates no intermediate
`object` schema and no nested tree. -/
theorem c3_flat_dotted_entry (path : String) (E : Extractor.FieldValidation)
    (_hdot : strContains path "." = true)
    (hstar : (pySplitC '.' path).contains "*" = false) :
    Extractor.handle_nested_validation path E = [(path, E.setFieldName path)] := by
  unfold Extractor.handle_nested_validation
  rw [if_neg (by simpa using hstar)]

/-- C3 witness: the amended statement evaluated at `user.email`. -/
theorem c3_flat_dotted_entry_witness :
    Extractor.handle_nested_validation "user.email"
        (Extractor.FieldValidation.new "x") =
      [("user.email",
        (Extractor.FieldValidation.new "x").setFieldName "user.email")] :=
  c3_flat_dotted_entry "user.email" (Extractor.FieldValidation.new "x") rfl rfl

/-- C5 counterexample: a compiled rule list containing the token
`sometimes` leaves the extractor's nullable flag false. -/
theorem c5_counterexample :
    (Extractor.foldRules ["sometimes"]).nullable = false := rfl

/-- C5 (amended): in the extractor's rule loop a token named `required`
sets required=true and a token named `nullable` sets nullable=true, but
`nullable` is the only token name that sets nullable — `sometimes` leaves
it false; in linker_full's `parse_validation_rule`, `required`, `nullable`
and `sometimes` behave exactly as the claim states. -/
theorem c5_flag_derivation :
    (∀ rules : List String,
      (∃ r ∈ rules, (Extractor.parse_single_rule r).rule_name = "required") →
      (Extractor.foldRules rules).required = true) ∧
    (∀ rules : List String,
      (∃ r ∈ rules, (Extractor.parse_single_rule r).rule_name = "nullable") →
      (Extractor.foldRules rules).nullable = true) ∧
    (∀ rules : List String,
      (∀ r ∈ rules, (Extractor.parse_single_rule r).rule_name ≠ "nullable") →
      (Extractor.foldRules rules).nullable = false) ∧
    LinkerFull.parse_validation_rule "required|sometimes" =
      .ok { schema := { nullable := some true }, required := true,
            nullable := true } := by
  refine ⟨?_, ?_, ?_, rfl⟩
  · intro rules h
    unfold Extractor.foldRules
    rw [Extractor.foldl_ruleStep_required]
    obtain ⟨r, hr, hname⟩ := h
    have : rules.any
        (fun r => (Extractor.parse_single_rule r).rule_name == "required") = true :=
      List.any_eq_true.mpr ⟨r, hr, by simp [hname]⟩
    simp [this, Extractor.FieldValidation.new, Extractor.FieldValidation.required]
  · intro rules h
    unfold Extractor.foldRules
    rw [Extractor.foldl_ruleStep_nullable]
    obtain ⟨r, hr, hname⟩ := h
    have : rules.any
        (fun r => (Extractor.parse_single_rule r).rule_name == "nullable") = true :=
      List.any_eq_true.mpr ⟨r, hr, by simp [hname]⟩
    simp [this, Extractor.FieldValidation.new, Extractor.FieldValidation.nullable]
  · intro rules h
    unfold Extractor.foldRules
    rw [Extractor.foldl_ruleStep_nullable]
    have : rules.any
        (fun r => (Extractor.parse_single_rule r).rule_name == "nullable") = false := by
      rw [List.any_eq_false]
      intro r hr
      simp [h r hr]
    simp [this, Extractor.FieldValidation.new, Extractor.FieldValidation.nullable]

/-- C5 witness: the amended flag laws evaluated on the single-token lists
`["required"]`, `["nullable"]` and `["sometimes"]`. -/
theorem c5_flag_derivation_witness :
    (Extractor.foldRules ["required"]).required = true ∧
    (Extractor.foldRules ["nullable"]).nullable = true ∧
    (Extractor.foldRules ["sometimes"]).nullable = false :=
  ⟨c5_flag_derivation.1 ["required"] ⟨"required", by simp, rfl⟩,
    c5_flag_derivation.2.1 ["nullable"] ⟨"nullable", by simp, rfl⟩,
    c5_flag_derivation.2.2.1 ["sometimes"]
      (by intro r hr; simp at hr; subst hr; decide)⟩

/-- C6 counterexample: the folded `items` field's primitive type stays at
the default `string`; it is not forced to `array`. -/
theorem c6_counterexample :
    ((dictGet (Extractor.handle_nested_validation "items.*.name"
        (Extractor.FieldValidation.new "")) "items").map
      Extractor.FieldValidation.field_type) = some "string" := rfl

/-- C6 (amended): resolving `{"items.*.name": E}` yields one top-level
field `items` with is_array=true and exactly one nested field `name` whose
schema is `E` with its field name overwritten to `name`; the `items`
field's primitive type keeps the dataclass default `string` rather than
being forced to `array`. -/
theorem c6_wildcard_fold (E : Extractor.FieldValidation) :
    Extractor.handle_nested_validation "items.*.name" E =
      [("items",
        ((Extractor.FieldValidation.new "items").setIsArray true).setNested
          [("name", E.setFieldName "name")])] := rfl

/-- C4 counterexample: linker_full's `parse_validation_rule` raises
`ValueError` on `min:abc` (the default primitive type is string, so
`int('abc')` is evaluated unguarded) — the compiler does not ignore the
token. -/
theorem c4_counterexample :
    LinkerFull.parse_validation_rule "min:abc" = .error "ValueError" := rfl

/-- C4 (amended): the extractor's rule loop ignores `min:P`/`max:P` with a
non-integer `P` and never fails, setting `min_value`/`max_value` only for
numeric parameters (regardless of the current type); linker_full's
`parse_validation_rule` sets length bounds when the current type is string
and numeric bounds when it is integer/number, skips the token for other
types, but raises `ValueError` on a non-integer parameter when the current
type is string or numeric. -/
theorem c4_lenient_bounds :
    (∀ r : String, (Extractor.parse_single_rule r).rule_name = "min" →
      pyInt ((Extractor.parse_single_rule r).parameters.headD "") = none →
      (Extractor.foldRules [r]).min_value = none) ∧
    (∀ r : String, (Extractor.parse_single_rule r).rule_name = "max" →
      pyInt ((Extractor.parse_single_rule r).parameters.headD "") = none →
      (Extractor.foldRules [r]).max_value = none) ∧
    (Extractor.foldRules ["min:7"]).min_value = some 7 ∧
    LinkerFull.parse_validation_rule "min:5" =
      .ok { schema := { minLength := some 5 }, required := false,
            nullable := false } ∧
    LinkerFull.parse_validation_rule "integer|min:7" =
      .ok { schema := { type := "integer", minimum := some 7 },
            required := false, nullable := false } ∧
    LinkerFull.parse_validation_rule "boolean|min:abc" =
      .ok { schema := { type := "boolean" }, required := false,
            nullable := false } := by
  refine ⟨?_, ?_, rfl, rfl, rfl, rfl⟩
  · intro r _hname h
    show (Extractor.ruleStep (Extractor.FieldValidation.new "") r).min_value = none
    unfold Extractor.ruleStep
    rw [Extractor.applyRule_min_value _ _ (by simpa using h)]
    rfl
  · intro r _hname h
    show (Extractor.ruleStep (Extractor.FieldValidation.new "") r).max_value = none
    unfold Extractor.ruleStep
    rw [Extractor.applyRule_max_value _ _ (by simpa using h)]
    rfl

/-- C4 witness: the amended statement evaluated at the non-numeric tokens
`min:abc` and `max:abc`. -/
theorem c4_lenient_bounds_witness :
    (Extractor.foldRules ["min:abc"]).min_value = none ∧
    (Extractor.foldRules ["max:abc"]).max_value = none :=
  ⟨c4_lenient_bounds.1 "min:abc" rfl rfl,
    c4_lenient_bounds.2.1 "max:abc" rfl rfl⟩

theorem ParseV2.enumCaseStep_mkEnumCase (cases : List ParseV2.EnumCase)
    (n : String) (vt : Option String) (l : Nat) :
    ParseV2.enumCaseStep cases (ParseV2.mkEnumCase n vt l) =
      cases ++ [{ name := n, value := vt.map stripQuotes, line := l }] := by
  cases vt <;> rfl

theorem ParseV2.foldl_enumCaseStep (cs : List (String × Option String × Nat)) :
    ∀ acc : List ParseV2.EnumCase,
    ((cs.map (fun c => ParseV2.mkEnumCase c.1 c.2.1 c.2.2)).foldl
        ParseV2.enumCaseStep acc) =
      acc ++ cs.map
        (fun c => { name := c.1, value := c.2.1.map stripQuotes, line := c.2.2 }) := by
  induction cs with
  | nil => intro acc; simp
  | cons c rest ih =>
    intro acc
    simp only [List.map_cons, List.foldl_cons]
    rw [ParseV2.enumCaseStep_mkEnumCase, ih]
    simp

/-- C8: enum case extraction returns the cases in declaration order, each
carrying its explicit literal value (quotes stripped) when present; the
spec-modelled allowed-value resolution then takes the explicit value in
preference to the case name. In particular `case A = 'a'; case B = 'b';`
yields exactly `["a", "b"]` in declaration order. -/
theorem c8_enum_declaration_order (cs : List (String × Option String × Nat)) :
    ParseV2.extract_enum_cases
        (ParseV2.mkEnumNode (cs.map (fun c => ParseV2.mkEnumCase c.1 c.2.1 c.2.2))) =
      cs.map
        (fun c => { name := c.1, value := c.2.1.map stripQuotes, line := c.2.2 }) ∧
    ParseV2.allowed_values
        (ParseV2.extract_enum_cases
          (ParseV2.mkEnumNode (cs.map (fun c => ParseV2.mkEnumCase c.1 c.2.1 c.2.2)))) =
      cs.map (fun c => ((c.2.1.map stripQuotes)).getD c.1) := by
  have hext : ParseV2.extract_enum_cases
      (ParseV2.mkEnumNode (cs.map (fun c => ParseV2.mkEnumCase c.1 c.2.1 c.2.2))) =
      cs.map
        (fun c => { name := c.1, value := c.2.1.map stripQuotes, line := c.2.2 }) := by
    show ((cs.map (fun c => ParseV2.mkEnumCase c.1 c.2.1 c.2.2)).foldl
        ParseV2.enumCaseStep []) = _
    rw [ParseV2.foldl_enumCaseStep]
    simp
  refine ⟨hext, ?_⟩
  rw [hext]
  simp [ParseV2.allowed_values, List.map_map]

/-- C9: the top-level extraction pipeline returns only GET endpoints —
every endpoint in a successful `extract_all` result has HTTP method GET
(uppercased), so no descriptor for a route with any other verb ever
appears in the returned list. -/
theorem c9_get_only (route_files : List (String × Node))
    (controllers : List (String × List (String × Extractor.MethodInfo)))
    (form_requests : List (String × List (String × Extractor.FieldValidation)))
    (resources : List (String × List (String × Extractor.ResponseField)))
    (res : List Extractor.APIEndpoint) (ep : Extractor.APIEndpoint)
    (hok : Extractor.extract_all route_files controllers form_requests resources
      = .ok res)
    (hmem : ep ∈ res) : pyUpper ep.http_method = "GET" := by
  unfold Extractor.extract_all at hok
  simp only [Bind.bind, Except.bind] at hok
  cases hl : Extractor.link_route_data controllers form_requests resources
      (Extractor.extract_routes route_files) with
  | error e => rw [hl] at hok; simp at hok
  | ok linked =>
    rw [hl] at hok
    simp only [pure, Except.pure, Except.ok.injEq] at hok
    subst hok
    have := List.mem_filter.mp hmem
    simpa using this.2

/-- C9 witness: a route file declaring one GET and one POST route produces
exactly the GET descriptor. -/
theorem c9_get_only_witness :
    Extractor.extract_all [("routes/api.php", sampleRouteTree)] [] [] [] =
      .ok [{ http_method := "GET", route_path := "/items",
             file_path := some "routes/api.php", line_number := some 2 }] ∧
    pyUpper "GET" = "GET" :=
  ⟨rfl,
    c9_get_only [("routes/api.php", sampleRouteTree)] [] [] []
      [{ http_method := "GET", route_path := "/items",
         file_path := some "routes/api.php", line_number := some 2 }]
      { http_method := "GET", route_path := "/items",
        file_path := some "routes/api.php", line_number := some 2 }
      rfl (by simp)⟩

/-- C2 counterexample: a route whose controller cannot be resolved (empty
class index) is dropped by linker_full's `link_routes_to_schemas` and by
linker_get's `link_get_routes` — the linked output is empty for a
one-route input. -/
theorem c2_counterexample :
    LinkerFull.link_routes_to_schemas
      [{ method := some "GET", path := some "/x", controller := some "X",
         action := some "show" }] [] = .ok [] ∧
    LinkerGet.link_get_routes
      [{ path := "/x", controller := "X", action := "show", line := 1,
         file := "f" }] [] = [] :=
  ⟨rfl, rfl⟩

theorem LinkerQC.linkRouteStep_fields (cf rf : List LinkerQC.QFile)
    (linked : List LinkerQC.QLinked) (route : LinkerQC.QRoute) :
    (LinkerQC.linkRouteStep cf rf linked route).map
        (fun l => (l.path, l.controller, l.action)) =
      linked.map (fun l => (l.path, l.controller, l.action)) ++
        [(route.path, route.controller, route.action)] := by
  unfold LinkerQC.linkRouteStep
  split
  · simp
  · split
    · simp
    · simp

/-- C2 (amended): linker_query_correct's `link_routes` never drops a route
— every input route produces exactly one linked entry with the same path,
controller and action (unresolvable facets degrade to empty
response/parameters); but linker_full's `link_routes_to_schemas` and
linker_get's `link_get_routes` omit a route whose controller, action or
handler method cannot be resolved (see the counterexample). -/
theorem c2_no_route_dropped (routes : List LinkerQC.QRoute)
    (cf rf : List LinkerQC.QFile) :
    (LinkerQC.link_routes routes cf rf).map
        (fun l => (l.path, l.controller, l.action)) =
      routes.map (fun r => (r.path, r.controller, r.action)) := by
  unfold LinkerQC.link_routes
  suffices h : ∀ acc : List LinkerQC.QLinked,
      ((routes.foldl (LinkerQC.linkRouteStep cf rf) acc).map
        (fun l => (l.path, l.controller, l.action))) =
      acc.map (fun l => (l.path, l.controller, l.action)) ++
        routes.map (fun r => (r.path, r.controller, r.action)) by
    simpa using h []
  induction routes with
  | nil => intro acc; simp
  | cons r rest ih =>
    intro acc
    simp only [List.foldl_cons, List.map_cons]
    rw [ih, LinkerQC.linkRouteStep_fields]
    simp

/-- C7 counterexample: the reference `User` is a substring of the indexed
name `UserController`, so substring-containment resolution would match,
but linker_query_correct's `find_controller` compares declared class names
for exact equality and resolves nothing. -/
theorem c7_counterexample :
    strContains "UserController" "User" = true ∧
    LinkerQC.find_controller [userControllerFile] "User" = none :=
  ⟨rfl, rfl⟩

/-- C7 (amended): linker_full (and linker_get) resolve a handler class by
substring containment against fully-qualified names with the first match in
index order winning and no error on ambiguity; linker_query_correct's
`find_controller` instead requires exact equality of the declared simple
class name, first file and first match in tree order winning. -/
theorem c7_resolution :
    (∀ (idx1 idx2 : List (String × LinkerFull.ClassInfo))
        (q : String × LinkerFull.ClassInfo) (c : String),
      (∀ r ∈ idx1, strContains r.1 c = false) → strContains q.1 c = true →
      LinkerFull.findControllerClass (idx1 ++ q :: idx2) c = some q) ∧
    (∀ (files : List LinkerQC.QFile) (name p : String) (node : Node),
      LinkerQC.find_controller files name = some (p, node) →
      ∃ f ∈ files, f.path = p ∧
        (node, name) ∈ LinkerQC.classMatches f.tree) := by
  constructor
  · intro idx1 idx2 q c h1 hq
    unfold LinkerFull.findControllerClass
    induction idx1 with
    | nil => simp [List.find?_cons_of_pos, hq]
    | cons r rest ih =>
      rw [List.cons_append, List.find?_cons_of_neg]
      · exact ih (fun x hx => h1 x (List.mem_cons_of_mem _ hx))
      · simp [h1 r (List.mem_cons_self _ _)]
  · intro files name p node h
    induction files with
    | nil => simp [LinkerQC.find_controller] at h
    | cons f rest ih =>
      unfold LinkerQC.find_controller at h
      cases hfind : (LinkerQC.classMatches f.tree).find?
          (fun q => q.2 == name) with
      | some found =>
        rw [hfind] at h
        have hmem := List.mem_of_find?_eq_some hfind
        have hpred := List.find?_some hfind
        simp only [beq_iff_eq] at hpred
        simp only [Option.some.injEq, Prod.mk.injEq] at h
        refine ⟨f, List.mem_cons_self _ _, h.1, ?_⟩
        have : (node, name) = found := by
          rw [← h.2, ← hpred]
        rw [this]
        exact hmem
      | none =>
        rw [hfind] at h
        obtain ⟨f', hf', hrest⟩ := ih h
        exact ⟨f', List.mem_cons_of_mem _ hf', hrest⟩

/-- C7 witness: both resolution styles evaluated on concrete data — the
substring lookup of linker_full finds `App\UserController` for the
reference `User`; the exact-match `find_controller` resolves
`UserController` to the declaring file. -/
theorem c7_resolution_witness :
    LinkerFull.findControllerClass
      [("App\\UserController",
        ⟨Node.mk "class_declaration" none "" 1 [], "App/UserController.php"⟩)]
      "User" =
      some ("App\\UserController",
        ⟨Node.mk "class_declaration" none "" 1 [], "App/UserController.php"⟩) ∧
    (∃ f ∈ [userControllerFile], f.path = "UserController.php" ∧
      (Node.mk "class_declaration" none "" 1
        [Node.mk "name" (some "name") "UserController" 1 []], "UserController")
        ∈ LinkerQC.classMatches f.tree) :=
  ⟨c7_resolution.1 [] []
      ("App\\UserController",
        ⟨Node.mk "class_declaration" none "" 1 [], "App/UserController.php"⟩)
      "User" (by simp) rfl,
    c7_resolution.2 [userControllerFile] "UserController" "UserController.php"
      (Node.mk "class_declaration" none "" 1
        [Node.mk "name" (some "name") "UserController" 1 []]) rfl⟩

theorem LinkerGet.infer_type_from_value_hasType (n v : String) :
    (jLookup (LinkerGet.infer_type_from_value n v) "type").isSome = true := by
  unfold LinkerGet.infer_type_from_value
  split_ifs <;> rfl

theorem LinkerQC.infer_type_hasType (n v : String) :
    (jLookup (LinkerQC.infer_type n v) "type").isSome = true := by
  unfold LinkerQC.infer_type
  split_ifs <;> rfl

theorem schemaWellFormed_insert (props : List (String × JVal))
    (req : List String) (n : String) (sch : JVal)
    (h : schemaWellFormed props req)
    (hs : (jLookup sch "type").isSome = true) :
    schemaWellFormed (dictInsert props n sch) req ∧
    schemaWellFormed (dictInsert props n sch) (req ++ [n]) := by
  have hprops : ∀ p ∈ dictInsert props n sch,
      (jLookup p.2 "type").isSome = true := by
    intro p hp
    rcases mem_dictInsert_elim _ _ _ _ hp with h' | h'
    · exact h.2 p h'
    · rw [h']; exact hs
  have hreq : ∀ k ∈ req, k ∈ (dictInsert props n sch).map Prod.fst :=
    fun k hk => keys_dictInsert_mono _ _ _ _ (h.1 k hk)
  refine ⟨⟨hreq, hprops⟩, ?_, hprops⟩
  intro k hk
  rcases List.mem_append.mp hk with hk | hk
  · exact hreq k hk
  · simp only [List.mem_singleton] at hk
    subst hk
    exact mem_keys_dictInsert _ _ _

theorem LinkerGet.gElemStep_wf (st : List (String × JVal) × List String)
    (child : Node) (h : schemaWellFormed st.1 st.2) :
    schemaWellFormed (LinkerGet.gElemStep st child).1
      (LinkerGet.gElemStep st child).2 := by
  simp only [LinkerGet.gElemStep]
  split
  · split
    · split
      · exact (schemaWellFormed_insert _ _ _ _ h
          (LinkerGet.infer_type_from_value_hasType _ _)).2
      · exact (schemaWellFormed_insert _ _ _ _ h
          (LinkerGet.infer_type_from_value_hasType _ _)).1
    · exact h
  · exact h

theorem LinkerQC.qElemStep_wf (st : List (String × JVal) × List String)
    (elem : Node) (h : schemaWellFormed st.1 st.2) :
    schemaWellFormed (LinkerQC.qElemStep st elem).1
      (LinkerQC.qElemStep st elem).2 := by
  simp only [LinkerQC.qElemStep]
  split
  · exact h
  · split
    · exact (schemaWellFormed_insert _ _ _ _ h
        (LinkerQC.infer_type_hasType _ _)).2
    · exact (schemaWellFormed_insert _ _ _ _ h
        (LinkerQC.infer_type_hasType _ _)).1

theorem LinkerFull.lfElemStep_wf (sch : LinkerFull.LFSchema) (child : Node)
    (h : schemaWellFormed sch.props sch.required) :
    schemaWellFormed (LinkerFull.lfElemStep sch child).props
      (LinkerFull.lfElemStep sch child).required := by
  simp only [LinkerFull.lfElemStep]
  split
  · split
    · split_ifs <;>
        first
        | exact (schemaWellFormed_insert _ _ _ _ h (by rfl)).2
        | exact (schemaWellFormed_insert _ _ _ _ h (by rfl)).1
    · exact h
  · exact h

theorem foldl_gElemStep_wf (l : List Node) :
    ∀ st : List (String × JVal) × List String, schemaWellFormed st.1 st.2 →
    schemaWellFormed (l.foldl LinkerGet.gElemStep st).1
      (l.foldl LinkerGet.gElemStep st).2 := by
  induction l with
  | nil => intro st h; exact h
  | cons c rest ih =>
    intro st h
    exact ih _ (LinkerGet.gElemStep_wf st c h)

theorem foldl_qElemStep_wf (l : List Node) :
    ∀ st : List (String × JVal) × List String, schemaWellFormed st.1 st.2 →
    schemaWellFormed (l.foldl LinkerQC.qElemStep st).1
      (l.foldl LinkerQC.qElemStep st).2 := by
  induction l with
  | nil => intro st h; exact h
  | cons c rest ih =>
    intro st h
    exact ih _ (LinkerQC.qElemStep_wf st c h)

theorem foldl_lfElemStep_wf (l : List Node) :
    ∀ sch : LinkerFull.LFSchema, schemaWellFormed sch.props sch.required →
    schemaWellFormed (l.foldl LinkerFull.lfElemStep sch).props
      (l.foldl LinkerFull.lfElemStep sch).required := by
  induction l with
  | nil => intro sch h; exact h
  | cons c rest ih =>
    intro sch h
    exact ih _ (LinkerFull.lfElemStep_wf sch c h)

/-- C10: every non-empty object schema produced by the three literal-shape
extractors is well-formed — its `required` list only names keys of
`properties`, and every property value carries a `type` key — for every
input node. -/
theorem c10_response_schema_wf (m1 m2 a3 : Node) :
    (∀ sch : LinkerFull.LFSchema,
      LinkerFull.extract_array_schema_from_method m1 = some sch →
      schemaWellFormed sch.props sch.required) ∧
    (∀ sch : LinkerGet.GSchema,
      LinkerGet.parse_to_array_method m2 = some sch →
      schemaWellFormed sch.props sch.required) ∧
    (∀ sch : LinkerQC.QSchema,
      LinkerQC.parse_array a3 = some sch →
      schemaWellFormed sch.props sch.required) := by
  refine ⟨?_, ?_, ?_⟩
  · intro sch h
    unfold LinkerFull.extract_array_schema_from_method at h
    cases hf : LinkerFull.find_return_array m1 with
    | none => rw [hf] at h; simp at h
    | some arr =>
      rw [hf] at h
      simp only [Option.some.injEq] at h
      subst h
      exact foldl_lfElemStep_wf _ _ ⟨by simp, by simp⟩
  · intro sch h
    unfold LinkerGet.parse_to_array_method at h
    cases hf : LinkerGet.find_return_array m2 with
    | none => rw [hf] at h; simp at h
    | some arr =>
      rw [hf] at h
      dsimp only at h
      split at h
      · exact absurd h (by simp)
      · simp only [Option.some.injEq] at h
        subst h
        exact foldl_gElemStep_wf _ _ ⟨by simp, by simp⟩
  · intro sch h
    unfold LinkerQC.parse_array at h
    dsimp only at h
    split at h
    · exact absurd h (by simp)
    · simp only [Option.some.injEq] at h
      subst h
      exact foldl_qElemStep_wf _ _ ⟨by simp, by simp⟩

/-- C10 witness: the invariant evaluated on a concrete one-field return
array, through all three extractors. -/
theorem c10_response_schema_wf_witness :
    schemaWellFormed [("id", JVal.obj [("type", JVal.str "integer")])] ["id"] ∧
    schemaWellFormed [("id", JVal.obj [("type", JVal.str "integer")])] ["id"] ∧
    schemaWellFormed [("id", JVal.obj [("type", JVal.str "integer")])] ["id"] :=
  ⟨(c10_response_schema_wf sampleToArray sampleToArray sampleArrayNode).1
      { props := [("id", JVal.obj [("type", JVal.str "integer")])]
        required := ["id"] } rfl,
    (c10_response_schema_wf sampleToArray sampleToArray sampleArrayNode).2.1
      { props := [("id", JVal.obj [("type", JVal.str "integer")])]
        required := ["id"] } rfl,
    (c10_response_schema_wf sampleToArray sampleToArray sampleArrayNode).2.2
      { props := [("id", JVal.obj [("type", JVal.str "integer")])]
        required := ["id"] } rfl⟩
